import Mathlib

/-!
# GDB's Win32 native target (`gdb/win32-nat.c`)

A shallow embedding of the target-vector operations of `gdb/win32-nat.c` and
proofs of properties of its event loop, register cache, memory bridge, module
notifier, kill path, exception table, attach and launch.

Conventions of the embedding.

* The file-level statics of the C file (`context`, `current_process`,
  `current_thread`, `current_process_id`, `current_thread_id`,
  `exception_count`, `event_count`) are the fields of `State`, which is passed
  explicitly.  `State.registers` is GDB's own register buffer and
  `State.trace` is the chronological log of every call the code makes to the
  operating system or to GDB's core.
* `Session` adds to `State` the two user options that launch reads and the
  two globals of GDB's core that attach and launch write; `Host` holds the
  replies of the collaborators that only attach and launch call.
* The operating system is an `OS` record of reply functions.  Every reply is a
  function of the whole call history, so a theorem quantified over `OS` covers
  every behaviour of the system.  The outcomes of `WaitForDebugEvent` are given
  as a list consumed in order; running out of outcomes is a wait that blocks
  for ever (`none`).
* `DWORD`, `int` and `HANDLE` values are the natural number of their 32-bit
  pattern; conversions between `int` and `DWORD` keep that pattern.
* Diagnostic output (`printf_unfiltered`, `DEBUG_*`, `CHECK`, `warning`) has
  no effect on the statics or on the calls made and is not part of the model.
-/

namespace Win32Nat

/-! ## Constants of the Win32 API

The exception codes, debug event codes, continuation dispositions and context
flags named by the file, with the values the Win32 headers give them. -/

def EXCEPTION_ACCESS_VIOLATION : Nat := 0xC0000005
def STATUS_STACK_OVERFLOW : Nat := 0xC00000FD
def EXCEPTION_BREAKPOINT : Nat := 0x80000003
def DBG_CONTROL_C : Nat := 0x40010005
def EXCEPTION_SINGLE_STEP : Nat := 0x80000004

def EXCEPTION_DEBUG_EVENT : Nat := 1
def CREATE_THREAD_DEBUG_EVENT : Nat := 2
def CREATE_PROCESS_DEBUG_EVENT : Nat := 3
def EXIT_THREAD_DEBUG_EVENT : Nat := 4
def EXIT_PROCESS_DEBUG_EVENT : Nat := 5
def LOAD_DLL_DEBUG_EVENT : Nat := 6
def UNLOAD_DLL_DEBUG_EVENT : Nat := 7
def OUTPUT_DEBUG_STRING_EVENT : Nat := 8

def DBG_CONTINUE : Nat := 0x00010002
def DBG_EXCEPTION_NOT_HANDLED : Nat := 0x80010001

def CONTEXT_CONTROL : Nat := 0x00010001
def CONTEXT_INTEGER : Nat := 0x00010002
def CONTEXT_SEGMENTS : Nat := 0x00010004
def CONTEXT_FLOATING_POINT : Nat := 0x00010008
def CONTEXT_FULL : Nat := CONTEXT_CONTROL ||| CONTEXT_INTEGER ||| CONTEXT_SEGMENTS

/-! ## Macros of GDB's i386 target description used by the file

`NUM_REGS`, the fourth of them, is defined below the table `mappings`. -/

/-- Modelled from the spec: the macro `PS_REGNUM` (target header, not in
`src/`) is the index of the flags register, the entry of `mappings` that
points at `context.EFlags`. -/
def PS_REGNUM : Nat := 9

/-- Modelled from the spec: the macro `FLAG_TRACE_BIT` (target header, not in
`src/`) is the trap flag of the i386 flags register, bit 8. -/
def FLAG_TRACE_BIT : Nat := 0x100

/-- Modelled from the spec: the macro `REGISTER_RAW_SIZE` (target header, not
in `src/`) is the number of bytes of a register: the sixteen registers kept
in `DWORD` members of the context have 4 bytes, the floating-point registers
kept in `FloatSave.RegisterArea` have 10. -/
def REGISTER_RAW_SIZE (N : Nat) : Nat := if N < 16 then 4 else 10

/-! ## Data model -/

/-- The members of `enum target_signal` the file uses. -/
inductive target_signal
  | TARGET_SIGNAL_0
  | TARGET_SIGNAL_INT
  | TARGET_SIGNAL_TRAP
  | TARGET_SIGNAL_SEGV
  | TARGET_SIGNAL_UNKNOWN
  deriving DecidableEq, Repr

/-- The `enum target_waitkind` of GDB. -/
inductive target_waitkind
  | TARGET_WAITKIND_EXITED
  | TARGET_WAITKIND_STOPPED
  | TARGET_WAITKIND_SIGNALLED
  | TARGET_WAITKIND_LOADED
  | TARGET_WAITKIND_SPURIOUS
  deriving DecidableEq, Repr

/-- The union `value` of `struct target_waitstatus`: an exit status or a
signal. -/
inductive waitstatus_value
  | integer (n : Nat)
  | sig (s : target_signal)
  deriving DecidableEq, Repr

/-- The `struct target_waitstatus` handed back by `child_wait`. -/
structure target_waitstatus where
  kind : target_waitkind
  value : waitstatus_value
  deriving DecidableEq, Repr

structure EXCEPTION_RECORD where
  ExceptionCode : Nat
  ExceptionAddress : Nat
  deriving DecidableEq, Repr

structure EXCEPTION_DEBUG_INFO where
  ExceptionRecord : EXCEPTION_RECORD
  dwFirstChance : Nat
  deriving DecidableEq, Repr

structure EXIT_PROCESS_DEBUG_INFO where
  dwExitCode : Nat
  deriving DecidableEq, Repr

structure LOAD_DLL_DEBUG_INFO where
  lpBaseOfDll : Nat
  lpImageName : Nat
  fUnicode : Nat
  deriving DecidableEq, Repr

structure OUTPUT_DEBUG_STRING_INFO where
  lpDebugStringData : Nat
  deriving DecidableEq, Repr

/-- The members of the union `u` of a `DEBUG_EVENT` that the file reads.  The
C union overlays them; the code reads only the member selected by
`dwDebugEventCode`, so they are kept side by side. -/
structure DEBUG_EVENT_u where
  Exception : EXCEPTION_DEBUG_INFO
  ExitProcess : EXIT_PROCESS_DEBUG_INFO
  LoadDll : LOAD_DLL_DEBUG_INFO
  DebugString : OUTPUT_DEBUG_STRING_INFO
  deriving DecidableEq, Repr

structure DEBUG_EVENT where
  dwDebugEventCode : Nat
  dwProcessId : Nat
  dwThreadId : Nat
  u : DEBUG_EVENT_u
  deriving DecidableEq, Repr

/-- The members of the i386 `CONTEXT` that the file names.  The sixteen
register members are `DWORD`s; `RegisterArea` is the byte array
`FloatSave.RegisterArea`, given by its byte at each index. -/
structure CONTEXT where
  ContextFlags : Nat
  SegGs : Nat
  SegFs : Nat
  SegEs : Nat
  SegDs : Nat
  Edi : Nat
  Esi : Nat
  Ebx : Nat
  Edx : Nat
  Ecx : Nat
  Eax : Nat
  Ebp : Nat
  Eip : Nat
  SegCs : Nat
  EFlags : Nat
  Esp : Nat
  SegSs : Nat
  RegisterArea : Nat → Nat

/-- A pointer into the static `context`, as stored in `mappings[r].incontext`:
the address of a `DWORD` member or of a byte of `FloatSave.RegisterArea`. -/
inductive ContextLoc
  | Eax | Ecx | Edx | Ebx | Esp | Ebp | Esi | Edi | Eip | EFlags
  | SegCs | SegSs | SegDs | SegEs | SegFs | SegGs
  | RegisterArea (off : Nat)
  deriving DecidableEq, Repr

/-- The `struct regmappings` of the file. -/
structure regmappings where
  incontext : ContextLoc
  mask : Nat
  deriving DecidableEq, Repr

/-- The static table `mappings` (the `i386` branch). -/
def mappings : List regmappings :=
  [ ⟨ContextLoc.Eax, CONTEXT_INTEGER⟩,
    ⟨ContextLoc.Ecx, CONTEXT_INTEGER⟩,
    ⟨ContextLoc.Edx, CONTEXT_INTEGER⟩,
    ⟨ContextLoc.Ebx, CONTEXT_INTEGER⟩,
    ⟨ContextLoc.Esp, CONTEXT_CONTROL⟩,
    ⟨ContextLoc.Ebp, CONTEXT_CONTROL⟩,
    ⟨ContextLoc.Esi, CONTEXT_INTEGER⟩,
    ⟨ContextLoc.Edi, CONTEXT_INTEGER⟩,
    ⟨ContextLoc.Eip, CONTEXT_CONTROL⟩,
    ⟨ContextLoc.EFlags, CONTEXT_CONTROL⟩,
    ⟨ContextLoc.SegCs, CONTEXT_SEGMENTS⟩,
    ⟨ContextLoc.SegSs, CONTEXT_SEGMENTS⟩,
    ⟨ContextLoc.SegDs, CONTEXT_SEGMENTS⟩,
    ⟨ContextLoc.SegEs, CONTEXT_SEGMENTS⟩,
    ⟨ContextLoc.SegFs, CONTEXT_SEGMENTS⟩,
    ⟨ContextLoc.SegGs, CONTEXT_SEGMENTS⟩,
    ⟨ContextLoc.RegisterArea (0 * 10), CONTEXT_FLOATING_POINT⟩,
    ⟨ContextLoc.RegisterArea (1 * 10), CONTEXT_FLOATING_POINT⟩,
    ⟨ContextLoc.RegisterArea (2 * 10), CONTEXT_FLOATING_POINT⟩,
    ⟨ContextLoc.RegisterArea (3 * 10), CONTEXT_FLOATING_POINT⟩,
    ⟨ContextLoc.RegisterArea (4 * 10), CONTEXT_FLOATING_POINT⟩,
    ⟨ContextLoc.RegisterArea (5 * 10), CONTEXT_FLOATING_POINT⟩,
    ⟨ContextLoc.RegisterArea (6 * 10), CONTEXT_FLOATING_POINT⟩,
    ⟨ContextLoc.RegisterArea (7 * 10), CONTEXT_FLOATING_POINT⟩ ]

/-- Modelled from the spec: the macro `NUM_REGS` (target header, not in
`src/`) is the architecture's register count, which the spec states to be the
length of the mapping table. -/
def NUM_REGS : Nat := mappings.length

/-- One call made by the file to the operating system or to GDB's core, with
the arguments that matter. -/
inductive Call
  | WaitForDebugEvent
  | ContinueDebugEvent (dwProcessId dwThreadId dwContinueStatus : Nat)
  | GetThreadContext (hThread ContextFlags : Nat)
  | SetThreadContext (hThread : Nat) (context : CONTEXT)
  | ReadProcessMemory (hProcess lpBaseAddress nSize : Nat)
  | WriteProcessMemory (hProcess lpBaseAddress : Nat) (lpBuffer : List Nat) (nSize : Nat)
  | FlushInstructionCache (hProcess lpBaseAddress dwSize : Nat)
  | CloseHandle (hObject : Nat)
  | TerminateProcess (hProcess uExitCode : Nat)
  | symbol_file_add (name : List Nat) (addr : Nat)
  | registers_changed
  | target_read_string (memaddr len : Nat)
  | target_mourn_inferior
  | DebugActiveProcess (dwProcessId : Nat)
  | CreateProcess (lpCommandLine : List Nat) (dwCreationFlags : Nat) (lpEnvironment : List Nat)
  | push_target
  | init_thread_list
  | init_wait_for_inferior
  | clear_proceed_status
  | target_terminal_init
  | target_terminal_inferior
  | proceed

/-- What `ReadProcessMemory` leaves behind: the contents of the destination
buffer and the value of `*lpNumberOfBytesRead`. -/
structure ReadReply where
  buffer : List Nat
  done : Nat
  deriving DecidableEq, Repr

/-- What one `WaitForDebugEvent` call leaves behind: its `BOOL` result and the
contents of the `DEBUG_EVENT` it was given to fill. -/
structure WaitOutcome where
  ok : Bool
  event : DEBUG_EVENT
  deriving DecidableEq, Repr

/-- The behaviour of the operating system and of the external collaborators.
Each reply is a function of the calls made so far, the call being answered
included. -/
structure OS where
  ContinueDebugEvent : List Call → Bool
  GetThreadContext : List Call → CONTEXT → CONTEXT
  ReadProcessMemory : List Call → ReadReply
  WriteProcessMemory : List Call → Nat
  WideCharToMultiByte : List Nat → Nat → List Nat
  cygwin32_conv_to_posix_path : List Nat → List Nat
  object_files : List Call → List (List Nat)

/-- The statics of the file, GDB's register buffer and the call log. -/
structure State where
  context : CONTEXT
  current_process : Nat
  current_thread : Nat
  current_process_id : Nat
  current_thread_id : Nat
  exception_count : Int
  event_count : Int
  registers : Nat → List Nat
  trace : List Call

/-- Record a call in the log. -/
def State.call (s : State) (c : Call) : State :=
  { s with trace := s.trace ++ [c] }

/-! ## Exception classifier -/

/-- The call `GetThreadContext (hThread, &context)`: the system fills the
register members of `context`; `ContextFlags` is its input and is kept. -/
def GetThreadContext (os : OS) (hThread : Nat) (s : State) : State :=
  let s1 := s.call (Call.GetThreadContext hThread s.context.ContextFlags)
  { s1 with context :=
      { os.GetThreadContext s1.trace s1.context with ContextFlags := s1.context.ContextFlags } }

/-- The switch of `handle_exception`: the signal stored in
`ourstatus->value.sig`, or `none` on the path that returns 0. -/
def handle_exception_switch (event : DEBUG_EVENT) : Option target_signal :=
  let code := event.u.Exception.ExceptionRecord.ExceptionCode
  if code = EXCEPTION_ACCESS_VIOLATION then some target_signal.TARGET_SIGNAL_SEGV
  else if code = STATUS_STACK_OVERFLOW then some target_signal.TARGET_SIGNAL_SEGV
  else if code = EXCEPTION_BREAKPOINT then some target_signal.TARGET_SIGNAL_TRAP
  else if code = DBG_CONTROL_C then some target_signal.TARGET_SIGNAL_INT
  else if code = EXCEPTION_SINGLE_STEP then some target_signal.TARGET_SIGNAL_TRAP
  else if event.u.Exception.dwFirstChance ≠ 0 then none
  else some target_signal.TARGET_SIGNAL_UNKNOWN

/-- The function `handle_exception`: its return value, the wait status it
leaves in `*ourstatus` and the new statics. -/
def handle_exception (os : OS) (event : DEBUG_EVENT) (ourstatus : target_waitstatus)
    (s : State) : Int × target_waitstatus × State :=
  let ourstatus := { ourstatus with kind := target_waitkind.TARGET_WAITKIND_STOPPED }
  match handle_exception_switch event with
  | none => (0, ourstatus, s)
  | some sig =>
    let ourstatus := { ourstatus with value := waitstatus_value.sig sig }
    let s := { s with context :=
      { s.context with ContextFlags := CONTEXT_FULL ||| CONTEXT_FLOATING_POINT } }
    let s := GetThreadContext os s.current_thread s
    (1, ourstatus, { s with exception_count := s.exception_count + 1 })

/-! ## Register context cache -/

/-- The four bytes of a `DWORD`, least significant first (the i386 byte
order). -/
def dwordBytes (x : Nat) : List Nat :=
  [x % 256, x / 256 % 256, x / 65536 % 256, x / 16777216 % 256]

/-- The `DWORD` whose bytes, least significant first, are the first four
of `b`. -/
def bytesDword (b : List Nat) : Nat :=
  b.getD 0 0 % 256 + 256 * (b.getD 1 0 % 256) + 65536 * (b.getD 2 0 % 256)
    + 16777216 * (b.getD 3 0 % 256)

/-- The `n` bytes a `memcpy` reads from the start of the byte string `v`. -/
def rawBytes (v : List Nat) (n : Nat) : List Nat :=
  (List.range n).map (fun j => v.getD j 0)

/-- The `n` bytes of the context found at the pointer `p` (`n` is at most 4
for a `DWORD` member). -/
def memread (c : CONTEXT) (p : ContextLoc) (n : Nat) : List Nat :=
  match p with
  | ContextLoc.Eax => (dwordBytes c.Eax).take n
  | ContextLoc.Ecx => (dwordBytes c.Ecx).take n
  | ContextLoc.Edx => (dwordBytes c.Edx).take n
  | ContextLoc.Ebx => (dwordBytes c.Ebx).take n
  | ContextLoc.Esp => (dwordBytes c.Esp).take n
  | ContextLoc.Ebp => (dwordBytes c.Ebp).take n
  | ContextLoc.Esi => (dwordBytes c.Esi).take n
  | ContextLoc.Edi => (dwordBytes c.Edi).take n
  | ContextLoc.Eip => (dwordBytes c.Eip).take n
  | ContextLoc.EFlags => (dwordBytes c.EFlags).take n
  | ContextLoc.SegCs => (dwordBytes c.SegCs).take n
  | ContextLoc.SegSs => (dwordBytes c.SegSs).take n
  | ContextLoc.SegDs => (dwordBytes c.SegDs).take n
  | ContextLoc.SegEs => (dwordBytes c.SegEs).take n
  | ContextLoc.SegFs => (dwordBytes c.SegFs).take n
  | ContextLoc.SegGs => (dwordBytes c.SegGs).take n
  | ContextLoc.RegisterArea off => (List.range n).map (fun j => c.RegisterArea (off + j))

/-- The context after the bytes `b` are copied to the pointer `p` (`b` holds
the 4 bytes of the member when `p` is a `DWORD` member). -/
def memwrite (c : CONTEXT) (p : ContextLoc) (b : List Nat) : CONTEXT :=
  match p with
  | ContextLoc.Eax => { c with Eax := bytesDword b }
  | ContextLoc.Ecx => { c with Ecx := bytesDword b }
  | ContextLoc.Edx => { c with Edx := bytesDword b }
  | ContextLoc.Ebx => { c with Ebx := bytesDword b }
  | ContextLoc.Esp => { c with Esp := bytesDword b }
  | ContextLoc.Ebp => { c with Ebp := bytesDword b }
  | ContextLoc.Esi => { c with Esi := bytesDword b }
  | ContextLoc.Edi => { c with Edi := bytesDword b }
  | ContextLoc.Eip => { c with Eip := bytesDword b }
  | ContextLoc.EFlags => { c with EFlags := bytesDword b }
  | ContextLoc.SegCs => { c with SegCs := bytesDword b }
  | ContextLoc.SegSs => { c with SegSs := bytesDword b }
  | ContextLoc.SegDs => { c with SegDs := bytesDword b }
  | ContextLoc.SegEs => { c with SegEs := bytesDword b }
  | ContextLoc.SegFs => { c with SegFs := bytesDword b }
  | ContextLoc.SegGs => { c with SegGs := bytesDword b }
  | ContextLoc.RegisterArea off =>
    { c with RegisterArea := fun a =>
        if off ≤ a ∧ a < off + b.length then b.getD (a - off) 0 else c.RegisterArea a }

/-- Modelled from the spec: `supply_register (regno, val)` of GDB's core (not
in `src/`) copies the `REGISTER_RAW_SIZE (regno)` bytes found at `val`, here a
place of the cached context, into the debugger's register `regno`. -/
def supply_register (regno : Nat) (val : ContextLoc) (s : State) : State :=
  { s with registers :=
      Function.update s.registers regno (memread s.context val (REGISTER_RAW_SIZE regno)) }

/-- Modelled from the spec: `read_register_gen (regno, myaddr)` of GDB's core
(not in `src/`) copies the `REGISTER_RAW_SIZE (regno)` bytes of the debugger's
register `regno` to `myaddr`, here a place of the cached context. -/
def read_register_gen (regno : Nat) (myaddr : ContextLoc) (s : State) : State :=
  { s with context :=
      memwrite s.context myaddr (rawBytes (s.registers regno) (REGISTER_RAW_SIZE regno)) }

/-- The `else` branch of `child_fetch_inferior_registers`, for `r >= 0`.  An
index past the end of `mappings` is undefined in C (`none`). -/
def fetch_one (r : Nat) (s : State) : Option State :=
  match mappings[r]? with
  | some m => some (supply_register r m.incontext s)
  | none => none

/-- The function `child_fetch_inferior_registers`: a negative `r` fetches
every register in turn. -/
def child_fetch_inferior_registers (r : Int) (s : State) : Option State :=
  if r < 0 then (List.range NUM_REGS).foldlM (fun st k => fetch_one k st) s
  else fetch_one r.toNat s

/-- The `else` branch of `child_store_inferior_registers`, for `r >= 0`.  An
index past the end of `mappings` is undefined in C (`none`). -/
def store_one (r : Nat) (s : State) : Option State :=
  match mappings[r]? with
  | some m => some (read_register_gen r m.incontext s)
  | none => none

/-- The function `child_store_inferior_registers`: a negative `r` stores every
register in turn. -/
def child_store_inferior_registers (r : Int) (s : State) : Option State :=
  if r < 0 then (List.range NUM_REGS).foldlM (fun st k => store_one k st) s
  else store_one r.toNat s

/-- The function `child_resume`.  `pid` is only printed, and a non-zero
`signal` only prints a message. -/
def child_resume (_os : OS) (_pid : Int) (step : Int) (_signal : target_signal)
    (s : State) : Option State :=
  let stepped : Option State :=
    if step ≠ 0 then
      (child_fetch_inferior_registers (PS_REGNUM : Nat) s).map fun s1 =>
        { s1 with context := { s1.context with EFlags := s1.context.EFlags ||| FLAG_TRACE_BIT } }
    else some s
  stepped.map fun s1 =>
    let s2 :=
      if s1.context.ContextFlags ≠ 0 then
        let s3 := s1.call (Call.SetThreadContext s1.current_thread s1.context)
        { s3 with context := { s3.context with ContextFlags := 0 } }
      else s1
    s2.call (Call.ContinueDebugEvent s2.current_process_id s2.current_thread_id DBG_CONTINUE)

/-! ## Memory access bridge -/

/-- The function `child_xfer_memory`: its return value (`done`), the contents
of the buffer `our` afterwards and the new statics.  The argument `target` is
not used by the function. -/
def child_xfer_memory (os : OS) (memaddr : Nat) (our : List Nat) (len : Nat) (write : Int)
    (s : State) : Nat × List Nat × State :=
  if write ≠ 0 then
    let s1 := s.call (Call.WriteProcessMemory s.current_process memaddr our len)
    let done := os.WriteProcessMemory s1.trace
    let s2 := s1.call (Call.FlushInstructionCache s1.current_process memaddr len)
    (done, our, s2)
  else
    let s1 := s.call (Call.ReadProcessMemory s.current_process memaddr len)
    let r := os.ReadProcessMemory s1.trace
    (r.done, r.buffer, s1)

/-! ## Kill -/

/-- The `for (;;)` loop of `child_kill_inferior`: the statics when the loop is
left and the wait outcomes not consumed, or `none` when a wait blocks for
ever. -/
def child_kill_inferior_loop (os : OS) :
    List WaitOutcome → State → Option (State × List WaitOutcome)
  | [], s =>
    let s1 := s.call
      (Call.ContinueDebugEvent s.current_process_id s.current_thread_id DBG_CONTINUE)
    if os.ContinueDebugEvent s1.trace = false then some (s1, []) else none
  | w :: rest, s =>
    let s1 := s.call
      (Call.ContinueDebugEvent s.current_process_id s.current_thread_id DBG_CONTINUE)
    if os.ContinueDebugEvent s1.trace = false then some (s1, w :: rest)
    else
      let s2 := s1.call Call.WaitForDebugEvent
      if w.ok = false then some (s2, rest)
      else
        let s3 := { s2 with current_thread_id := w.event.dwThreadId,
                            current_process_id := w.event.dwProcessId }
        if w.event.dwDebugEventCode = EXIT_PROCESS_DEBUG_EVENT then some (s3, rest)
        else child_kill_inferior_loop os rest s3

/-- The function `child_kill_inferior`.  `target_mourn_inferior` dispatches
through GDB's target vector and is recorded as a call. -/
def child_kill_inferior (os : OS) (waits : List WaitOutcome) (s : State) :
    Option (State × List WaitOutcome) :=
  let s1 := s.call (Call.TerminateProcess s.current_process 0)
  (child_kill_inferior_loop os waits s1).map fun r =>
    let s2 := r.1.call (Call.CloseHandle r.1.current_process)
    let s3 := s2.call (Call.CloseHandle s2.current_thread)
    (s3.call Call.target_mourn_inferior, r.2)

/-! ## Module load notifier -/

/-- The C string held by a buffer: its bytes up to the first NUL. -/
def cstring (b : List Nat) : List Nat :=
  b.takeWhile (fun x => x ≠ 0)

/-- The function `strrchr (s, c)` of the C library on the string `s`: the
tail of `s` that starts at the last occurrence of `c`, or `none` for `NULL`. -/
def strrchr : List Nat → Nat → Option (List Nat)
  | [], _ => none
  | x :: xs, c =>
    match strrchr xs c with
    | some r => some r
    | none => if x = c then some (x :: xs) else none

/-- The largest value of the `int` counter `len` of `handle_load_dll`. -/
def INT_MAX : Nat := 2147483647

/-- The `do ... while` loop of `handle_load_dll` that looks for the end of the
module name one unit at a time: the final `len` and the statics.  The first
argument bounds the number of rounds; `none` when it is exhausted. -/
def dll_name_scan (os : OS) (dll_name_ptr size : Nat) :
    Nat → Nat → State → Option (Nat × State)
  | 0, _, _ => none
  | fuel + 1, len, s =>
    let s1 := s.call
      (Call.ReadProcessMemory s.current_process ((dll_name_ptr + len * size) % 2 ^ 32) size)
    let b := (os.ReadProcessMemory s1.trace).buffer
    let done := (os.ReadProcessMemory s1.trace).done
    if (b.getD 0 0 ≠ 0 ∨ b.getD (size - 1) 0 ≠ 0) ∧ done = size then
      dll_name_scan os dll_name_ptr size fuel (len + 1) s1
    else some (len + 1, s1)

/-- The test of the `ALL_OBJFILES` loop of `handle_load_dll` for one objfile
name: both base-name pointers are non-null and the strings after them are
equal. -/
def objfile_matches (dll_basename : Option (List Nat)) (objfile_name : List Nat) : Bool :=
  let objfile_basename :=
    match strrchr objfile_name 92 with
    | some q => some q
    | none => strrchr objfile_name 47
  match dll_basename, objfile_basename with
  | some d, some o => decide (d.drop 1 = o.drop 1)
  | _, _ => false

/-- The first part of `handle_load_dll`, up to the call of
`cygwin32_conv_to_posix_path`: the statics and, when the pointer to the name
could be read and is not null, the module name `dll_name`.  The result is
`none` when the scan for the end of the name exceeds the range of `len`. -/
def read_dll_name (os : OS) (event : DEBUG_EVENT) (s : State) :
    Option (State × Option (List Nat)) :=
  let s1 := s.call (Call.ReadProcessMemory s.current_process event.u.LoadDll.lpImageName 4)
  let dll_name_ptr := bytesDword (os.ReadProcessMemory s1.trace).buffer
  let done := (os.ReadProcessMemory s1.trace).done
  if done = 4 ∧ dll_name_ptr ≠ 0 then
    let size := if event.u.LoadDll.fUnicode ≠ 0 then 2 else 1
    match dll_name_scan os dll_name_ptr size INT_MAX 0 s1 with
    | none => none
    | some (len, s2) =>
      if event.u.LoadDll.fUnicode ≠ 0 then
        let s3 := s2.call (Call.ReadProcessMemory s2.current_process dll_name_ptr (len * 2))
        some (s3, some (cstring
          (os.WideCharToMultiByte (os.ReadProcessMemory s3.trace).buffer len)))
      else
        let s3 := s2.call (Call.ReadProcessMemory s2.current_process dll_name_ptr len)
        some (s3, some (cstring (os.ReadProcessMemory s3.trace).buffer))
  else some (s1, none)

/-- The function `handle_load_dll`: its return value and the new statics.
Strings are lists of bytes; 92 is the backslash and 47 the slash. -/
def handle_load_dll (os : OS) (event : DEBUG_EVENT) (s : State) : Option (Int × State) :=
  match read_dll_name os event s with
  | none => none
  | some (s1, none) => some (1, s1)
  | some (s1, some dll_name) =>
    let unix_dll_name := os.cygwin32_conv_to_posix_path dll_name
    let dll_basename :=
      match strrchr dll_name 92 with
      | some q => some q
      | none => strrchr dll_name 47
    if (os.object_files s1.trace).any (objfile_matches dll_basename) then some (1, s1)
    else
      let s2 := { s1 with context :=
        { s1.context with ContextFlags := CONTEXT_FULL ||| CONTEXT_FLOATING_POINT } }
      let s3 := GetThreadContext os s2.current_thread s2
      some (1, s3.call (Call.symbol_file_add unix_dll_name
        ((event.u.LoadDll.lpBaseOfDll + 0x1000) % 2 ^ 32)))

/-! ## Debug event loop -/

/-- How one round of the loop of `child_wait` ends: by returning from the
function, or at the `ContinueDebugEvent` below the switch. -/
inductive Round
  | returned (pid : Nat) (ourstatus : target_waitstatus) (s : State)
  | acknowledge (continue_status : Nat) (ourstatus : target_waitstatus) (s : State)

/-- The body of the loop of `child_wait` from the assignment of the current
ids to the end of the switch, for the event a wait produced. -/
def child_wait_switch (os : OS) (event : DEBUG_EVENT) (ourstatus : target_waitstatus)
    (s : State) : Option Round :=
  let s1 := { s with event_count := s.event_count + 1,
                     current_thread_id := event.dwThreadId,
                     current_process_id := event.dwProcessId }
  let code := event.dwDebugEventCode
  if code = CREATE_THREAD_DEBUG_EVENT then some (Round.acknowledge DBG_CONTINUE ourstatus s1)
  else if code = EXIT_THREAD_DEBUG_EVENT then some (Round.acknowledge DBG_CONTINUE ourstatus s1)
  else if code = CREATE_PROCESS_DEBUG_EVENT then
    some (Round.acknowledge DBG_CONTINUE ourstatus s1)
  else if code = EXIT_PROCESS_DEBUG_EVENT then
    let st : target_waitstatus :=
      { kind := target_waitkind.TARGET_WAITKIND_EXITED,
        value := waitstatus_value.integer event.u.ExitProcess.dwExitCode }
    let s2 := s1.call (Call.CloseHandle s1.current_process)
    let s3 := s2.call (Call.CloseHandle s2.current_thread)
    some (Round.returned s3.current_process_id st s3)
  else if code = LOAD_DLL_DEBUG_EVENT then
    match handle_load_dll os event s1 with
    | none => none
    | some (_, s2) => some (Round.acknowledge DBG_CONTINUE ourstatus (s2.call Call.registers_changed))
  else if code = UNLOAD_DLL_DEBUG_EVENT then some (Round.acknowledge DBG_CONTINUE ourstatus s1)
  else if code = EXCEPTION_DEBUG_EVENT then
    match handle_exception os event ourstatus s1 with
    | (ret, st, s2) =>
      if ret ≠ 0 then some (Round.returned s2.current_process_id st s2)
      else some (Round.acknowledge DBG_EXCEPTION_NOT_HANDLED st s2)
  else if code = OUTPUT_DEBUG_STRING_EVENT then
    some (Round.acknowledge DBG_CONTINUE ourstatus
      (s1.call (Call.target_read_string event.u.DebugString.lpDebugStringData 1024)))
  else some (Round.acknowledge DBG_CONTINUE ourstatus s1)

/-- What `child_wait` hands back: the returned pid, `*ourstatus`, the statics
and the wait outcomes not consumed. -/
structure WaitReturn where
  pid : Nat
  ourstatus : target_waitstatus
  state : State
  rest : List WaitOutcome

/-- The function `child_wait` on the successive outcomes of
`WaitForDebugEvent`.  The `BOOL` the wait returns is not looked at by the
code.  `none`: the wait blocks for ever, or a module-name scan does not end.
The argument `pid` is not used by the function. -/
def child_wait (os : OS) (pid : Int) :
    List WaitOutcome → target_waitstatus → State → Option WaitReturn
  | [], _, _ => none
  | w :: rest, ourstatus, s =>
    match child_wait_switch os w.event ourstatus (s.call Call.WaitForDebugEvent) with
    | none => none
    | some (Round.returned p st s1) => some ⟨p, st, s1, rest⟩
    | some (Round.acknowledge continue_status st s1) =>
      child_wait os pid rest st
        (s1.call (Call.ContinueDebugEvent s1.current_process_id s1.current_thread_id
          continue_status))

/-! ## Auxiliary definitions for the statements -/

/-- Two places of the context, of `n` and `m` bytes, that share no byte. -/
def separated (p : ContextLoc) (n : Nat) (q : ContextLoc) (m : Nat) : Bool :=
  match p, q with
  | ContextLoc.RegisterArea a, ContextLoc.RegisterArea b => decide (a + n ≤ b ∨ b + m ≤ a)
  | p, q => decide (p ≠ q)

/-- A pointer into `FloatSave.RegisterArea`. -/
def inRegisterArea : ContextLoc → Bool
  | ContextLoc.RegisterArea _ => true
  | _ => false

/-- An event with every member zero, from which examples are built. -/
def zeroEvent : DEBUG_EVENT :=
  ⟨0, 0, 0, ⟨⟨⟨0, 0⟩, 0⟩, ⟨0⟩, ⟨0, 0, 0⟩, ⟨0⟩⟩⟩

/-- A context with every member zero. -/
def zeroContext : CONTEXT :=
  ⟨0, 0, 0, 0, 0, 0, 0, 0, 0, 0, 0, 0, 0, 0, 0, 0, 0, fun _ => 0⟩

/-- The statics as the C file initialises them, with an empty call log and
four zero bytes in every register of the debugger. -/
def zeroState : State :=
  ⟨zeroContext, 0, 0, 0, 0, 0, 0, fun _ => [0, 0, 0, 0], []⟩

/-- An operating system that serves `ReadProcessMemory` from a fixed memory
image (`none` is an unmapped byte: a read that touches one transfers nothing),
accepts every `ContinueDebugEvent`, leaves the context as it is on
`GetThreadContext`, and reports the objfile names `objs`. -/
def imageOS (mem : Nat → Option Nat) (objs : List (List Nat)) : OS where
  ContinueDebugEvent := fun _ => true
  GetThreadContext := fun _ c => c
  ReadProcessMemory := fun tr =>
    match tr.getLast? with
    | some (Call.ReadProcessMemory _ a n) =>
      let bs := (List.range n).map (fun j => mem (a + j))
      if bs.all Option.isSome then ⟨bs.map (fun o => o.getD 0), n⟩ else ⟨[], 0⟩
    | _ => ⟨[], 0⟩
  WriteProcessMemory := fun _ => 0
  WideCharToMultiByte := fun b _ => b
  cygwin32_conv_to_posix_path := fun b => b
  object_files := fun _ => objs

/-- The call is a `GetThreadContext`. -/
def Call.isGetThreadContext : Call → Bool
  | Call.GetThreadContext _ _ => true
  | _ => false

/-- The call is a `SetThreadContext`. -/
def Call.isSetThreadContext : Call → Bool
  | Call.SetThreadContext _ _ => true
  | _ => false

/-- The `n` bytes at the place `p` of every context handed to
`SetThreadContext` in a call log, in order. -/
def writtenSlots (p : ContextLoc) (n : Nat) (tr : List Call) : List (List Nat) :=
  tr.filterMap fun c =>
    match c with
    | Call.SetThreadContext _ ctx => some (memread ctx p n)
    | _ => none

/-- The call is a `WaitForDebugEvent` or a `ContinueDebugEvent`. -/
def Call.isWaitOrContinue : Call → Bool
  | Call.WaitForDebugEvent => true
  | Call.ContinueDebugEvent _ _ _ => true
  | _ => false

/-- The event is one at which `child_wait` is claimed to return: an
exit-process event, or an exception event that the classifier finds
interesting (the switch of `handle_exception` yields a signal). -/
def stops (e : DEBUG_EVENT) : Bool :=
  decide (e.dwDebugEventCode = EXIT_PROCESS_DEBUG_EVENT) ||
    (decide (e.dwDebugEventCode = EXCEPTION_DEBUG_EVENT) && (handle_exception_switch e).isSome)

/-- The disposition claimed for an event that does not make `child_wait`
return: "exception not handled" for an exception the classifier reports as
not interesting, the default "continue" for every other kind. -/
def disposition (e : DEBUG_EVENT) : Nat :=
  if e.dwDebugEventCode = EXCEPTION_DEBUG_EVENT ∧ handle_exception_switch e = none then
    DBG_EXCEPTION_NOT_HANDLED
  else DBG_CONTINUE

/-- The waits and acknowledgements claimed for a run of events none of which
makes `child_wait` return: each event is waited for and then acknowledged
once, with its own process id and thread id. -/
def acknowledgements (pre : List WaitOutcome) : List Call :=
  pre.flatMap fun w =>
    [Call.WaitForDebugEvent,
     Call.ContinueDebugEvent w.event.dwProcessId w.event.dwThreadId (disposition w.event)]

/-- The step from `s` to `t` keeps the current process and thread ids and
makes no `WaitForDebugEvent` or `ContinueDebugEvent` call. -/
def Quiet (s t : State) : Prop :=
  t.current_process_id = s.current_process_id ∧
  t.current_thread_id = s.current_thread_id ∧
  t.trace.filter Call.isWaitOrContinue = s.trace.filter Call.isWaitOrContinue

/-- A load-module event of process 7, thread 8. -/
def loadEvent : DEBUG_EVENT :=
  { zeroEvent with dwDebugEventCode := LOAD_DLL_DEBUG_EVENT, dwProcessId := 7, dwThreadId := 8 }

/-- A first-chance exception of process 7, thread 9, with a code that is not
in the table. -/
def firstChanceEvent : DEBUG_EVENT :=
  { dwDebugEventCode := EXCEPTION_DEBUG_EVENT, dwProcessId := 7, dwThreadId := 9,
    u := { zeroEvent.u with Exception := ⟨⟨0xE06D7363, 0x401000⟩, 1⟩ } }

/-- A breakpoint exception of process 7, thread 9. -/
def breakpointEvent : DEBUG_EVENT :=
  { dwDebugEventCode := EXCEPTION_DEBUG_EVENT, dwProcessId := 7, dwThreadId := 9,
    u := { zeroEvent.u with Exception := ⟨⟨EXCEPTION_BREAKPOINT, 0x401000⟩, 1⟩ } }

/-- An exit-process event of process 7, thread 9, with exit code 3. -/
def exitEvent : DEBUG_EVENT :=
  { dwDebugEventCode := EXIT_PROCESS_DEBUG_EVENT, dwProcessId := 7, dwThreadId := 9,
    u := { zeroEvent.u with ExitProcess := ⟨3⟩ } }

/-- The text of `name` after its last byte `c`; the whole of `name` when `c`
does not occur in it. -/
def after_last (c : Nat) (name : List Nat) : List Nat :=
  (name.reverse.takeWhile (fun x => x ≠ c)).reverse

/-- The base name `handle_load_dll` gives a path: the text after the last
backslash (92) when the path has one, otherwise the text after the last slash
(47), and none when the path has neither. -/
def base_name (name : List Nat) : Option (List Nat) :=
  if 92 ∈ name then some (after_last 92 name)
  else if 47 ∈ name then some (after_last 47 name)
  else none

/-- The final path component in the words of the spec: the text after the
last path separator, a separator being a backslash or a slash; a name without
separator is its own final component. -/
def final_component (name : List Nat) : List Nat :=
  (name.reverse.takeWhile (fun x => x ≠ 92 ∧ x ≠ 47)).reverse

/-- The modules handed to `symbol_file_add` in a call log: name and address,
in order. -/
def registeredModules (tr : List Call) : List (List Nat × Nat) :=
  tr.filterMap fun c =>
    match c with
    | Call.symbol_file_add name addr => some (name, addr)
    | _ => none

/-- The bytes of a string. -/
def bytes (s : String) : List Nat :=
  s.toList.map Char.toNat

/-- A memory image for a load-module event whose `lpImageName` is 100: the
four bytes at 100 hold the address 200, and the bytes from 200 on hold `name`
and its terminating NUL.  Every other byte is unmapped. -/
def nameImage (name : List Nat) : Nat → Option Nat := fun a =>
  if 100 ≤ a ∧ a < 104 then ([200, 0, 0, 0] : List Nat)[a - 100]?
  else if 200 ≤ a then (name ++ [0])[a - 200]?
  else none

/-- A load-module event of process 7, thread 8, whose image name pointer is
at address 100 and whose image is loaded at 0x10000000. -/
def namedLoadEvent : DEBUG_EVENT :=
  { loadEvent with u := { zeroEvent.u with LoadDll := ⟨0x10000000, 100, 0⟩ } }

/-- The step from `s` to `t` keeps the current process and thread ids and
makes `ReadProcessMemory` calls only. -/
def ReadsOnly (s t : State) : Prop :=
  t.current_process_id = s.current_process_id ∧
  t.current_thread_id = s.current_thread_id ∧
  ∃ extra, t.trace = s.trace ++ extra ∧
    ∀ c ∈ extra, ∃ h a n, c = Call.ReadProcessMemory h a n

/-- The calls claimed for the drain loop of `child_kill_inferior` while it
drains the events `pre`: the acknowledgement of the event pending on entry
(process id `pid`, thread id `tid`), then for every drained event the wait that
delivers it and its acknowledgement, always with the default disposition. -/
def drain_calls (pid tid : Nat) (pre : List WaitOutcome) : List Call :=
  Call.ContinueDebugEvent pid tid DBG_CONTINUE ::
    pre.flatMap fun w =>
      [Call.WaitForDebugEvent,
       Call.ContinueDebugEvent w.event.dwProcessId w.event.dwThreadId DBG_CONTINUE]

/-- An operating system on which every `ContinueDebugEvent` fails. -/
def refusingOS : OS :=
  { imageOS (fun _ => none) [] with ContinueDebugEvent := fun _ => false }

/-! ## The exception table `xlate` -/

/-- The `struct xlate_exception` of the file.  `them` is an `int`, kept as its
32-bit pattern; `us` is `none` for a value that is no member of
`enum target_signal`. -/
structure xlate_exception where
  them : Nat
  us : Option target_signal
  deriving DecidableEq, Repr

/-- The static table `xlate`.  The last entry is the sentinel `{-1, -1}`: the
pattern of the `int` -1 is 0xFFFFFFFF, and -1 is no signal. -/
def xlate : List xlate_exception :=
  [ ⟨EXCEPTION_ACCESS_VIOLATION, some target_signal.TARGET_SIGNAL_SEGV⟩,
    ⟨STATUS_STACK_OVERFLOW, some target_signal.TARGET_SIGNAL_SEGV⟩,
    ⟨EXCEPTION_BREAKPOINT, some target_signal.TARGET_SIGNAL_TRAP⟩,
    ⟨DBG_CONTROL_C, some target_signal.TARGET_SIGNAL_INT⟩,
    ⟨EXCEPTION_SINGLE_STEP, some target_signal.TARGET_SIGNAL_TRAP⟩,
    ⟨0xFFFFFFFF, none⟩ ]

/-- The entries of `xlate` before the sentinel. -/
def xlate_entries : List xlate_exception :=
  xlate.takeWhile fun e => e.them ≠ 0xFFFFFFFF

/-- The search of the table in the words of the spec (the file declares the
table and never searches it): a linear search of the entries before the
sentinel in which the first match wins, a code that matches no entry giving
the Unknown signal. -/
def xlate_linear_search (code : Nat) : target_signal :=
  match xlate_entries.find? (fun e => e.them = code) with
  | some e => e.us.getD target_signal.TARGET_SIGNAL_UNKNOWN
  | none => target_signal.TARGET_SIGNAL_UNKNOWN

/-! ## Attach and launch -/

def DEBUG_ONLY_THIS_PROCESS : Nat := 0x00000002
def CREATE_NEW_CONSOLE : Nat := 0x00000010
def CREATE_NEW_PROCESS_GROUP : Nat := 0x00000200

/-- The members of the `PROCESS_INFORMATION` that `CreateProcess` fills. -/
structure PROCESS_INFORMATION where
  hProcess : Nat
  hThread : Nat
  dwProcessId : Nat
  dwThreadId : Nat
  deriving DecidableEq, Repr

/-- The behaviour of the collaborators that only attach and launch use.
`DebugActiveProcess` and `CreateProcess` reply as functions of the calls made
so far (`none`: `CreateProcess` returned `FALSE`); the four path functions are
those of the cygwin32 library, on C strings. -/
structure Host where
  DebugActiveProcess : List Call → Bool
  CreateProcess : List Call → Option PROCESS_INFORMATION
  cygwin32_conv_to_win32_path : List Nat → List Nat
  cygwin32_posix_path_list_p : List Nat → Bool
  cygwin32_posix_to_win32_path_list_buf_size : List Nat → Nat
  cygwin32_posix_to_win32_path_list : List Nat → List Nat

/-- The statics of `State` together with the two user options of the file
that launch reads (`new_console`, `new_group`) and the two globals of GDB's
core that attach, launch and `child_files_info` use (`inferior_pid`,
`attach_flag`). -/
structure Session extends State where
  new_console : Nat
  new_group : Nat
  inferior_pid : Nat
  attach_flag : Nat

/-- Record a call in the log of a session. -/
def Session.call (g : Session) (c : Call) : Session :=
  { g with toState := g.toState.call c }

/-- How a function that may call `error ()` ends: it returns, or `error`
unwinds out of it; either way with the session as it is at that point. -/
inductive Outcome
  | returned (g : Session)
  | error (g : Session)

/-- The function `child_attach`.  `args` is `none` for a null pointer and
otherwise the number `strtoul` reads from the string; `from_tty` only selects
what is printed. -/
def child_attach (host : Host) (args : Option Nat) (_from_tty : Int) (g : Session) :
    Outcome :=
  match args with
  | none => Outcome.error g
  | some pid =>
    let g1 : Session := { g with current_process_id := pid }
    let g2 := g1.call (Call.DebugActiveProcess g1.current_process_id)
    if host.DebugActiveProcess g2.trace = false then Outcome.error g2
    else
      let g3 : Session := { g2 with exception_count := 0, event_count := 0 }
      let g4 : Session := { g3 with inferior_pid := g3.current_process_id }
      Outcome.returned (g4.call Call.push_target)

/-- The function `child_files_info`: the two things its one line of output
depends on, the word chosen by `attach_flag` and the pid printed. -/
def child_files_info (g : Session) : String × Nat :=
  (if g.attach_flag ≠ 0 then "attached" else "child", g.inferior_pid)

/-- The static table `conv_path_names` of `child_create_inferior`, without its
terminating null pointer. -/
def conv_path_names : List (List Nat) :=
  [[80, 65, 84, 72, 61]]

/-- The test `strncmp (a, b, n) == 0` of the C library on two C strings. -/
def strncmp_eq (a b : List Nat) (n : Nat) : Bool :=
  decide (a.take n = b.take n)

/-- What one round of the sizing loop of `child_create_inferior` adds to
`envlen` for the variable `v`. -/
def env_entry_size (host : Host) (v : List Nat) : Nat :=
  match conv_path_names.find? (fun c => strncmp_eq c v c.length) with
  | some c =>
    if host.cygwin32_posix_path_list_p (v.drop c.length) then
      c.length + host.cygwin32_posix_to_win32_path_list_buf_size (v.drop c.length)
    else v.length + 1
  | none => v.length + 1

/-- The sizing loop of `child_create_inferior`: the final `envlen`.  The list
is the vector `env` up to its null pointer; the loop also ends at an empty
string. -/
def winenv_size (host : Host) : List (List Nat) → Nat
  | [] => 0
  | v :: rest => if v = [] then 0 else env_entry_size host v + winenv_size host rest

/-- What one round of the copy loop of `child_create_inferior` writes at
`temp` for the variable `v`, the terminating NUL included; `temp` then moves
past it. -/
def env_entry (host : Host) (v : List Nat) : List Nat :=
  match conv_path_names.find? (fun c => strncmp_eq c v c.length) with
  | some c =>
    if host.cygwin32_posix_path_list_p (v.drop c.length) then
      v.take c.length ++ cstring (host.cygwin32_posix_to_win32_path_list (v.drop c.length))
        ++ [0]
    else v ++ [0]
  | none => v ++ [0]

/-- The copy loop of `child_create_inferior` and the final `*temp = 0`: the
bytes written to `winenv`. -/
def winenv (host : Host) : List (List Nat) → List Nat
  | [] => [0]
  | v :: rest => if v = [] then [0] else env_entry host v ++ winenv host rest

/-- The session an outcome carries. -/
def Outcome.session : Outcome → Session
  | Outcome.returned g => g
  | Outcome.error g => g

/-- The body of `child_create_inferior` up to the call of
`target_terminal_inferior`, before its `child_wait`.  `exec_file` is `none`
for a null pointer.  The calls into GDB's core are recorded in the log. -/
def child_create_inferior_launch (host : Host) (exec_file : Option (List Nat))
    (allargs : List Nat) (env : List (List Nat)) (g : Session) : Outcome :=
  match exec_file with
  | none => Outcome.error g
  | some file =>
    let real_path := host.cygwin32_conv_to_win32_path file
    let flags := DEBUG_ONLY_THIS_PROCESS
      ||| (if g.new_group ≠ 0 then CREATE_NEW_PROCESS_GROUP else 0)
      ||| (if g.new_console ≠ 0 then CREATE_NEW_CONSOLE else 0)
    let args := real_path ++ [32] ++ allargs
    let g1 := g.call (Call.CreateProcess args flags (winenv host env))
    match host.CreateProcess g1.trace with
    | none => Outcome.error g1
    | some pi =>
      let g2 : Session :=
        { g1 with exception_count := 0, event_count := 0,
                  inferior_pid := pi.dwProcessId,
                  current_process := pi.hProcess, current_thread := pi.hThread,
                  current_process_id := pi.dwProcessId,
                  current_thread_id := pi.dwThreadId }
      Outcome.returned ((((((g2.call Call.push_target).call Call.init_thread_list).call
        Call.init_wait_for_inferior).call Call.clear_proceed_status).call
        Call.target_terminal_init).call Call.target_terminal_inferior)

/-- The function `child_create_inferior`: how it ends and the wait outcomes
not consumed, or `none` when its `child_wait` never returns.  `dummy` is the
uninitialised wait status on its stack; the final call of `proceed`, which is
GDB's core, is recorded in the log. -/
def child_create_inferior (os : OS) (host : Host) (exec_file : Option (List Nat))
    (allargs : List Nat) (env : List (List Nat)) (dummy : target_waitstatus)
    (waits : List WaitOutcome) (g : Session) : Option (Outcome × List WaitOutcome) :=
  match child_create_inferior_launch host exec_file allargs env g with
  | Outcome.error g1 => some (Outcome.error g1, waits)
  | Outcome.returned g3 =>
    match child_wait os g3.inferior_pid waits dummy g3.toState with
    | none => none
    | some r =>
      some (Outcome.returned (Session.call { g3 with toState := r.state } Call.proceed),
        r.rest)

/-! ## Auxiliary definitions for the statements on attach, launch and threads -/

/-- The entry the claim gives a variable in the environment block: a variable
that begins with `PATH=` and whose value is a host-convention path list keeps
the prefix and gets the OS-native path list the collaborator makes of the
value; every other variable is unchanged. -/
def claimed_entry (host : Host) (v : List Nat) : List Nat :=
  if bytes "PATH=" <+: v ∧ host.cygwin32_posix_path_list_p (v.drop 5) = true then
    bytes "PATH=" ++ cstring (host.cygwin32_posix_to_win32_path_list (v.drop 5))
  else v

/-- The environment block the claim describes for a list of variables: every
variable's entry followed by a NUL byte, in order, then one final NUL byte. -/
def claimed_block (host : Host) (env : List (List Nat)) : List Nat :=
  env.flatMap (fun v => claimed_entry host v ++ [0]) ++ [0]

/-- A host on which a value is a host-convention path list when it contains a
colon (58), the conversion turns colons into semicolons (59) and slashes (47)
into backslashes (92), the buffer size is the length of the value plus one,
and `DebugActiveProcess` and `CreateProcess` succeed, the latter with process
handle 11, thread handle 12, process id 7 and thread id 9. -/
def exampleHost : Host where
  DebugActiveProcess := fun _ => true
  CreateProcess := fun _ => some ⟨11, 12, 7, 9⟩
  cygwin32_conv_to_win32_path := fun p => p
  cygwin32_posix_path_list_p := fun v => decide (58 ∈ v)
  cygwin32_posix_to_win32_path_list_buf_size := fun v => v.length + 1
  cygwin32_posix_to_win32_path_list := fun v =>
    v.map fun x => if x = 58 then 59 else if x = 47 then 92 else x

/-- The session before any attach or launch: the statics as the C file
initialises them and the globals of GDB's core at zero. -/
def zeroSession : Session :=
  { zeroState with new_console := 0, new_group := 0, inferior_pid := 0, attach_flag := 0 }

/-- The thread handles passed to `GetThreadContext` in a call log, in
order. -/
def fetchedHandles (tr : List Call) : List Nat :=
  tr.filterMap fun c =>
    match c with
    | Call.GetThreadContext h _ => some h
    | _ => none

/-- A breakpoint exception of process 7 reported on thread 10. -/
def otherThreadEvent : DEBUG_EVENT :=
  { breakpointEvent with dwThreadId := 10 }

/-- The step from `s` to `t` keeps the process handle and the thread
handle. -/
def SameHandles (s t : State) : Prop :=
  t.current_process = s.current_process ∧ t.current_thread = s.current_thread

/-! ## Properties -/

/-- C1: `handle_exception` reports a stop with the mapped signal for the five
table codes (access violation and stack overflow: SEGV, breakpoint and single
step: TRAP, control-C: INT) whatever the first-chance flag is; for any other
code it returns 0 on first chance and reports a stop with signal Unknown on
second chance. -/
theorem handle_exception_classifies (os : OS) (event : DEBUG_EVENT)
    (ourstatus : target_waitstatus) (s : State) :
    let code := event.u.Exception.ExceptionRecord.ExceptionCode
    let r := handle_exception os event ourstatus s
    let stop := fun sig => r.1 = 1 ∧ r.2.1 =
      ⟨target_waitkind.TARGET_WAITKIND_STOPPED, waitstatus_value.sig sig⟩
    (code = EXCEPTION_ACCESS_VIOLATION → stop target_signal.TARGET_SIGNAL_SEGV) ∧
    (code = STATUS_STACK_OVERFLOW → stop target_signal.TARGET_SIGNAL_SEGV) ∧
    (code = EXCEPTION_BREAKPOINT → stop target_signal.TARGET_SIGNAL_TRAP) ∧
    (code = DBG_CONTROL_C → stop target_signal.TARGET_SIGNAL_INT) ∧
    (code = EXCEPTION_SINGLE_STEP → stop target_signal.TARGET_SIGNAL_TRAP) ∧
    (code ∉ [EXCEPTION_ACCESS_VIOLATION, STATUS_STACK_OVERFLOW, EXCEPTION_BREAKPOINT,
        DBG_CONTROL_C, EXCEPTION_SINGLE_STEP] →
      (event.u.Exception.dwFirstChance ≠ 0 → r.1 = 0) ∧
      (event.u.Exception.dwFirstChance = 0 → stop target_signal.TARGET_SIGNAL_UNKNOWN)) := by
  intro code r stop
  have hc : code = event.u.Exception.ExceptionRecord.ExceptionCode := rfl
  refine ⟨?_, ?_, ?_, ?_, ?_, ?_⟩
  · intro h
    rw [hc] at h
    simp [stop, r, handle_exception, handle_exception_switch, h]
  · intro h
    rw [hc] at h
    simp [stop, r, handle_exception, handle_exception_switch, h, STATUS_STACK_OVERFLOW,
      EXCEPTION_ACCESS_VIOLATION]
  · intro h
    rw [hc] at h
    simp [stop, r, handle_exception, handle_exception_switch, h, STATUS_STACK_OVERFLOW,
      EXCEPTION_ACCESS_VIOLATION, EXCEPTION_BREAKPOINT]
  · intro h
    rw [hc] at h
    simp [stop, r, handle_exception, handle_exception_switch, h, STATUS_STACK_OVERFLOW,
      EXCEPTION_ACCESS_VIOLATION, EXCEPTION_BREAKPOINT, DBG_CONTROL_C]
  · intro h
    rw [hc] at h
    simp [stop, r, handle_exception, handle_exception_switch, h, STATUS_STACK_OVERFLOW,
      EXCEPTION_ACCESS_VIOLATION, EXCEPTION_BREAKPOINT, DBG_CONTROL_C, EXCEPTION_SINGLE_STEP]
  · intro h
    rw [hc] at h
    simp only [List.mem_cons, List.mem_singleton, not_or, List.mem_nil_iff, or_false] at h
    obtain ⟨h1, h2, h3, h4, h5⟩ := h
    constructor
    · intro hf
      simp [r, handle_exception, handle_exception_switch, h1, h2, h3, h4, h5, hf]
    · intro hf
      simp [stop, r, handle_exception, handle_exception_switch, h1, h2, h3, h4, h5, hf]

/-! ### Register context cache -/

theorem dwordBytes_bytesDword (b : List Nat) (hlen : b.length = 4) (hb : ∀ x ∈ b, x < 256) :
    dwordBytes (bytesDword b) = b := by
  match b, hlen with
  | [a0, a1, a2, a3], _ =>
    have h0 : a0 < 256 := hb a0 (by simp)
    have h1 : a1 < 256 := hb a1 (by simp)
    have h2 : a2 < 256 := hb a2 (by simp)
    have h3 : a3 < 256 := hb a3 (by simp)
    simp only [dwordBytes, bytesDword, List.getD_cons_zero, List.getD_cons_succ]
    have e0 : (a0 % 256 + 256 * (a1 % 256) + 65536 * (a2 % 256) + 16777216 * (a3 % 256)) % 256 = a0 := by omega
    have e1 : (a0 % 256 + 256 * (a1 % 256) + 65536 * (a2 % 256) + 16777216 * (a3 % 256)) / 256 % 256 = a1 := by omega
    have e2 : (a0 % 256 + 256 * (a1 % 256) + 65536 * (a2 % 256) + 16777216 * (a3 % 256)) / 65536 % 256 = a2 := by omega
    have e3 : (a0 % 256 + 256 * (a1 % 256) + 65536 * (a2 % 256) + 16777216 * (a3 % 256)) / 16777216 % 256 = a3 := by omega
    rw [e0, e1, e2, e3]

theorem rawBytes_self (v : List Nat) (n : Nat) (h : v.length = n) : rawBytes v n = v := by
  subst h
  apply List.ext_getElem
  · simp [rawBytes]
  · intro k h1 h2
    simp [rawBytes, List.getD_eq_getElem?_getD, List.getElem?_eq_getElem h2]


theorem memread_memwrite_separated (c : CONTEXT) (p q : ContextLoc) (b : List Nat) (m : Nat)
    (h : separated p b.length q m = true) :
    memread (memwrite c p b) q m = memread c q m := by
  cases p <;> cases q <;> simp_all [separated, memread, memwrite]
  intro a ha h1 h2
  omega

theorem memread_memwrite_same (c : CONTEXT) (p : ContextLoc) (b : List Nat)
    (h : (∃ off, p = ContextLoc.RegisterArea off) ∨ (b.length = 4 ∧ ∀ x ∈ b, x < 256)) :
    memread (memwrite c p b) p b.length = b := by
  cases p
  case RegisterArea off =>
    apply List.ext_getElem
    · simp [memread]
    · intro k h1 h2
      simp [memread, memwrite, List.getD_eq_getElem?_getD, List.getElem?_eq_getElem h2, h2]
  all_goals
    rcases h with ⟨off, hoff⟩ | ⟨hl, hb⟩
    · cases hoff
    · simp only [memread, memwrite, dwordBytes_bytesDword b hl hb, hl]
      rw [← hl, List.take_length]

theorem mappings_separated :
    ∀ i < 24, ∀ j < 24, i ≠ j →
      separated ((mappings.getD i ⟨ContextLoc.Eax, 0⟩).incontext) (REGISTER_RAW_SIZE i)
        ((mappings.getD j ⟨ContextLoc.Eax, 0⟩).incontext) (REGISTER_RAW_SIZE j) = true := by
  decide


theorem mappings_slot_size :
    ∀ i < 24, inRegisterArea ((mappings.getD i ⟨ContextLoc.Eax, 0⟩).incontext) = true
      ∨ REGISTER_RAW_SIZE i = 4 := by
  decide

theorem mappings_getD (i : Nat) (m : regmappings) (h : mappings[i]? = some m) :
    mappings.getD i ⟨ContextLoc.Eax, 0⟩ = m ∧ i < 24 := by
  constructor
  · simp [List.getD_eq_getElem?_getD, h]
  · have := (List.getElem?_eq_some_iff.mp h).1
    simpa [mappings] using this

/-- What a store of register `i` followed by a fetch does to the slot of
`i`, to the other slots and to the debugger's buffer. -/
theorem store_fetch_slot (i : Nat) (v : List Nat) (s : State)
    (regs : Nat → List Nat) (hi : i < NUM_REGS) (hlen : v.length = REGISTER_RAW_SIZE i)
    (hbyte : ∀ x ∈ v, x < 256) (hv : s.registers i = v) :
    ∃ s1 s2 m,
      mappings[i]? = some m ∧
      child_store_inferior_registers (i : Int) s = some s1 ∧
      memread s1.context m.incontext (REGISTER_RAW_SIZE i) = v ∧
      child_fetch_inferior_registers (i : Int) { s1 with registers := regs } = some s2 ∧
      s2.registers i = v ∧
      ∀ j, j ≠ i → ∀ mj, mappings[j]? = some mj →
        memread s1.context mj.incontext (REGISTER_RAW_SIZE j)
          = memread s.context mj.incontext (REGISTER_RAW_SIZE j) := by
  have hi' : i < mappings.length := hi
  have hm : mappings[i]? = some mappings[i] := List.getElem?_eq_getElem hi'
  obtain ⟨hgi, hi24⟩ := mappings_getD i _ hm
  have hraw : rawBytes (s.registers i) (REGISTER_RAW_SIZE i) = v := by
    rw [hv]; exact rawBytes_self v _ hlen
  have hsame : memread (memwrite s.context mappings[i].incontext v) mappings[i].incontext
      (REGISTER_RAW_SIZE i) = v := by
    rw [← hlen]
    apply memread_memwrite_same
    rcases mappings_slot_size i hi24 with h | h
    · left
      rw [hgi] at h
      cases hp : mappings[i].incontext <;> simp_all [inRegisterArea]
    · right
      exact ⟨by omega, hbyte⟩
  refine ⟨read_register_gen i mappings[i].incontext s,
    supply_register i mappings[i].incontext
      { read_register_gen i mappings[i].incontext s with registers := regs },
    mappings[i], hm, ?_, ?_, ?_, ?_, ?_⟩
  · simp [child_store_inferior_registers, store_one, hm]
  · simp only [read_register_gen, hraw]
    exact hsame
  · simp [child_fetch_inferior_registers, fetch_one, hm]
  · simp only [supply_register, read_register_gen, hraw, Function.update_same]
    exact hsame
  · intro j hj mj hmj
    obtain ⟨hgj, hj24⟩ := mappings_getD j _ hmj
    simp only [read_register_gen, hraw]
    apply memread_memwrite_separated
    have := mappings_separated i hi24 j hj24 (Ne.symm hj)
    rw [hgi, hgj, ← hlen] at this
    exact this

/-- C2: for a register index `i < NUM_REGS` whose value `v` in the debugger's
buffer consists of `REGISTER_RAW_SIZE i` bytes, storing register `i` puts `v`
into the slot `mappings[i]` of the cached context and changes the slot of no
other register; fetching register `i` afterwards, whatever the debugger's
buffer has become in between, leaves `v` in the debugger's register `i`. -/
theorem store_then_fetch_returns_value (i : Nat) (v : List Nat) (s : State)
    (regs : Nat → List Nat) (hi : i < NUM_REGS) (hlen : v.length = REGISTER_RAW_SIZE i)
    (hbyte : ∀ x ∈ v, x < 256) (hv : s.registers i = v) :
    ∃ s1 s2 m,
      mappings[i]? = some m ∧
      child_store_inferior_registers (i : Int) s = some s1 ∧
      memread s1.context m.incontext (REGISTER_RAW_SIZE i) = v ∧
      child_fetch_inferior_registers (i : Int) { s1 with registers := regs } = some s2 ∧
      s2.registers i = v ∧
      ∀ j, j ≠ i → ∀ mj, mappings[j]? = some mj →
        memread s1.context mj.incontext (REGISTER_RAW_SIZE j)
          = memread s.context mj.incontext (REGISTER_RAW_SIZE j) :=
  store_fetch_slot i v s regs hi hlen hbyte hv

/-- The round trip of C2 at register 3 (`Ebx`) holding the bytes 1, 2, 3, 4, with
the debugger's buffer emptied between the store and the fetch. -/
theorem store_then_fetch_returns_value_witness :
    ∃ s1 s2 m,
      mappings[3]? = some m ∧
      child_store_inferior_registers ((3 : Nat) : Int)
        { zeroState with registers := fun _ => [1, 2, 3, 4] } = some s1 ∧
      memread s1.context m.incontext (REGISTER_RAW_SIZE 3) = [1, 2, 3, 4] ∧
      child_fetch_inferior_registers ((3 : Nat) : Int)
        { s1 with registers := fun _ => [] } = some s2 ∧
      s2.registers 3 = [1, 2, 3, 4] ∧
      ∀ j, j ≠ 3 → ∀ mj, mappings[j]? = some mj →
        memread s1.context mj.incontext (REGISTER_RAW_SIZE j)
          = memread { zeroState with registers := fun _ => [1, 2, 3, 4] }.context
              mj.incontext (REGISTER_RAW_SIZE j) :=
  store_then_fetch_returns_value 3 [1, 2, 3, 4]
    { zeroState with registers := fun _ => [1, 2, 3, 4] } (fun _ => [])
    (by decide) (by decide) (by decide) rfl

/-! ### Resume -/

theorem fetch_PS_REGNUM (s : State) :
    child_fetch_inferior_registers (PS_REGNUM : Nat) s
      = some (supply_register PS_REGNUM ContextLoc.EFlags s) := by
  simp [child_fetch_inferior_registers, fetch_one, PS_REGNUM, mappings]

theorem child_resume_eq (os : OS) (pid step : Int) (signal : target_signal) (s : State) :
    child_resume os pid step signal s = some
      { s with
        registers := if step ≠ 0 then (supply_register PS_REGNUM ContextLoc.EFlags s).registers
          else s.registers
        context := { s.context with
          EFlags := if step ≠ 0 then s.context.EFlags ||| FLAG_TRACE_BIT else s.context.EFlags
          ContextFlags := 0 }
        trace := s.trace ++
          (if s.context.ContextFlags ≠ 0 then
            [Call.SetThreadContext s.current_thread { s.context with
              EFlags := if step ≠ 0 then s.context.EFlags ||| FLAG_TRACE_BIT
                else s.context.EFlags }]
           else []) ++
          [Call.ContinueDebugEvent s.current_process_id s.current_thread_id DBG_CONTINUE] } := by
  obtain ⟨c, cp, ct, cpid, ctid, ec, evc, regs, tr⟩ := s
  cases c
  rename_i ContextFlags _ _ _ _ _ _ _ _ _ _ _ _ _ _ _ _ _
  by_cases hs : step = 0 <;> by_cases hf : ContextFlags = 0 <;>
    simp [child_resume, fetch_PS_REGNUM, hs, hf, State.call, supply_register]

/-- C5: after `child_resume` the validity mask `ContextFlags` of the cached
context is zero; the calls it makes are one `SetThreadContext` of the whole
cached context exactly when the mask is non-zero at that point, none
otherwise, followed by the `ContinueDebugEvent` that acknowledges the
event. -/
theorem child_resume_invalidates_cache (os : OS) (pid step : Int) (signal : target_signal)
    (s : State) :
    ∃ s1, child_resume os pid step signal s = some s1 ∧
      s1.context.ContextFlags = 0 ∧
      s1.trace = s.trace ++
        (if s.context.ContextFlags ≠ 0 then
          [Call.SetThreadContext s.current_thread { s.context with
            EFlags := if step ≠ 0 then s.context.EFlags ||| FLAG_TRACE_BIT
              else s.context.EFlags }]
         else []) ++
        [Call.ContinueDebugEvent s.current_process_id s.current_thread_id DBG_CONTINUE] :=
  ⟨_, child_resume_eq os pid step signal s, rfl, rfl⟩

theorem memread_with_EFlags (c : CONTEXT) (x : Nat) (p : ContextLoc) (n : Nat)
    (hp : p ≠ ContextLoc.EFlags) :
    memread { c with EFlags := x } p n = memread c p n := by
  cases p <;> simp_all [memread]

theorem mappings_EFlags :
    ∀ i < 24, (mappings.getD i ⟨ContextLoc.Eax, 0⟩).incontext = ContextLoc.EFlags → i = 9 := by
  decide

theorem testBit_or_FLAG_TRACE_BIT (x k : Nat) :
    (x ||| FLAG_TRACE_BIT).testBit k = (decide (k = 8) || x.testBit k) := by
  have h : FLAG_TRACE_BIT = 2 ^ 8 := by decide
  rw [Nat.testBit_or, h, Nat.testBit_two_pow, Bool.or_comm]
  by_cases hk : k = 8
  · simp [hk]
  · have hk2 : ¬ 8 = k := fun e => hk e.symm
    simp [hk, hk2]

/-- C6 (amended): storing register `i`, which holds the raw value `v` in the
debugger's buffer, makes no call and leaves the validity mask as it was.  The
`child_resume` that follows hands the whole cached context to
`SetThreadContext` exactly when the mask is non-zero, and the slot of register
`i` in that context holds `v`, with the trap bit added when `i` is the flags
register and `step` is set; when the mask is zero nothing is written. -/
theorem store_is_committed_by_resume (os : OS) (pid step : Int) (signal : target_signal)
    (i : Nat) (v : List Nat) (s : State) (hi : i < NUM_REGS)
    (hlen : v.length = REGISTER_RAW_SIZE i) (hbyte : ∀ x ∈ v, x < 256)
    (hv : s.registers i = v) :
    ∃ s1 s2 m c,
      mappings[i]? = some m ∧
      child_store_inferior_registers (i : Int) s = some s1 ∧
      s1.trace = s.trace ∧
      s1.context.ContextFlags = s.context.ContextFlags ∧
      child_resume os pid step signal s1 = some s2 ∧
      s2.trace = s.trace ++
        (if s.context.ContextFlags ≠ 0 then [Call.SetThreadContext s.current_thread c] else [])
        ++ [Call.ContinueDebugEvent s.current_process_id s.current_thread_id DBG_CONTINUE] ∧
      memread c m.incontext (REGISTER_RAW_SIZE i) =
        (if step ≠ 0 ∧ i = PS_REGNUM then dwordBytes (bytesDword v ||| FLAG_TRACE_BIT)
         else v) := by
  obtain ⟨s1, s2, m, hm, hstore, hslot, -, -, -⟩ :=
    store_fetch_slot i v s s.registers hi hlen hbyte hv
  obtain ⟨hgi, hi24⟩ := mappings_getD i m hm
  have hs1 : s1 = read_register_gen i m.incontext s := by
    have hneg : ¬ ((i : Int) < 0) := by omega
    simp [child_store_inferior_registers, store_one, hm, hneg] at hstore
    exact hstore.symm
  have htr : s1.trace = s.trace := by rw [hs1]; rfl
  have hcp : s1.current_process_id = s.current_process_id := by rw [hs1]; rfl
  have hct : s1.current_thread_id = s.current_thread_id := by rw [hs1]; rfl
  have hth : s1.current_thread = s.current_thread := by rw [hs1]; rfl
  have hfl : s1.context.ContextFlags = s.context.ContextFlags := by
    rw [hs1]
    simp only [read_register_gen]
    cases m.incontext <;> rfl
  refine ⟨s1, _, m, { s1.context with
      EFlags := if step ≠ 0 then s1.context.EFlags ||| FLAG_TRACE_BIT else s1.context.EFlags },
    hm, hstore, htr, hfl, child_resume_eq os pid step signal s1, ?_, ?_⟩
  · simp only [htr, hfl, hcp, hct, hth]
  · by_cases hstep : step = 0
    · simp only [hstep, ne_eq, not_true_eq_false, if_false, false_and]
      exact hslot
    · by_cases hps : i = PS_REGNUM
      · have hmE : m.incontext = ContextLoc.EFlags := by
          rw [← hgi, hps]; decide
        have h4 : REGISTER_RAW_SIZE i = 4 := by rw [hps]; decide
        have hE : s1.context.EFlags = bytesDword v := by
          rw [hs1]
          simp only [read_register_gen, hmE, memwrite, hv, rawBytes_self v _ hlen]
        simp [hstep, hps, hmE, memread, hE]
        rw [← hps, h4]
        simp [dwordBytes]
      · have hmE : m.incontext ≠ ContextLoc.EFlags := by
          intro h
          rw [← hgi] at h
          exact hps (mappings_EFlags i hi24 h)
        simp only [hps, and_false, if_false]
        rw [memread_with_EFlags _ _ _ _ hmE]
        exact hslot

/-- C6 (amended) at register 0 (`Eax`) holding the bytes 1, 2, 3, 4, with a
fully valid cached context and `step` clear. -/
theorem store_is_committed_by_resume_witness :
    ∃ s1 s2 m c,
      mappings[0]? = some m ∧
      child_store_inferior_registers ((0 : Nat) : Int)
        { zeroState with
          context := { zeroContext with ContextFlags := CONTEXT_FULL }
          registers := fun _ => [1, 2, 3, 4] } = some s1 ∧
      s1.trace = [] ∧
      s1.context.ContextFlags = CONTEXT_FULL ∧
      child_resume (imageOS (fun _ => none) []) 0 0 target_signal.TARGET_SIGNAL_0 s1
        = some s2 ∧
      s2.trace = [] ++
        (if CONTEXT_FULL ≠ 0 then [Call.SetThreadContext 0 c] else [])
        ++ [Call.ContinueDebugEvent 0 0 DBG_CONTINUE] ∧
      memread c m.incontext (REGISTER_RAW_SIZE 0) =
        (if (0 : Int) ≠ 0 ∧ 0 = PS_REGNUM then
          dwordBytes (bytesDword [1, 2, 3, 4] ||| FLAG_TRACE_BIT)
         else [1, 2, 3, 4]) :=
  store_is_committed_by_resume (imageOS (fun _ => none) []) 0 0 target_signal.TARGET_SIGNAL_0
    0 [1, 2, 3, 4]
    { zeroState with
      context := { zeroContext with ContextFlags := CONTEXT_FULL }
      registers := fun _ => [1, 2, 3, 4] }
    (by decide) (by decide) (by decide) rfl

/-- C6 as stated fails.  With the validity mask zero, storing register 0 and
resuming hands no context to the system at all; and with a valid context,
storing the flags register (four zero bytes) and resuming with `step` set
writes a slot that holds 0, 1, 0, 0 and not the stored value. -/
theorem store_not_always_committed :
    ((child_store_inferior_registers 0 { zeroState with registers := fun _ => [1, 2, 3, 4] }).bind
        (child_resume (imageOS (fun _ => none) []) 0 0 target_signal.TARGET_SIGNAL_0)).map
      (fun s => writtenSlots ContextLoc.Eax 4 s.trace) = some [] ∧
    ((child_store_inferior_registers 9
        { zeroState with context := { zeroContext with ContextFlags := CONTEXT_FULL } }).bind
        (child_resume (imageOS (fun _ => none) []) 0 1 target_signal.TARGET_SIGNAL_0)).map
      (fun s => writtenSlots ContextLoc.EFlags 4 s.trace) = some [[0, 1, 0, 0]] := by
  constructor <;> decide

/-- C7 (amended): `child_resume` never asks the system for a register group.
With `step` set and a non-zero validity mask it hands the system, before the
`ContinueDebugEvent`, the cached context with the trap bit of `EFlags` set and
every other bit and member unchanged.  With `step` clear the cached `EFlags`
and the `EFlags` of any context written are unchanged. -/
theorem child_resume_step_sets_trace_bit (os : OS) (pid step : Int) (signal : target_signal)
    (s : State) (hmask : step ≠ 0 → s.context.ContextFlags ≠ 0) :
    ∃ s1, child_resume os pid step signal s = some s1 ∧
      (∀ c ∈ s1.trace.drop s.trace.length, c.isGetThreadContext = false) ∧
      (if step ≠ 0 then
        s1.trace = s.trace ++
          [Call.SetThreadContext s.current_thread
            { s.context with EFlags := s.context.EFlags ||| FLAG_TRACE_BIT },
           Call.ContinueDebugEvent s.current_process_id s.current_thread_id DBG_CONTINUE] ∧
        ∀ k, (s.context.EFlags ||| FLAG_TRACE_BIT).testBit k
          = (decide (k = 8) || s.context.EFlags.testBit k)
       else
        s1.context.EFlags = s.context.EFlags ∧
        writtenSlots ContextLoc.EFlags 4 (s1.trace.drop s.trace.length)
          = (if s.context.ContextFlags ≠ 0 then [dwordBytes s.context.EFlags] else [])) := by
  refine ⟨_, child_resume_eq os pid step signal s, ?_, ?_⟩
  · intro c hc
    simp only [List.append_assoc, List.drop_left] at hc
    by_cases hf : s.context.ContextFlags = 0 <;>
      simp [hf] at hc <;> rcases hc with rfl | rfl <;> rfl
  · by_cases hs : step = 0
    · by_cases hf : s.context.ContextFlags = 0 <;>
        simp [hs, hf, writtenSlots, memread, dwordBytes]
    · have hf := hmask hs
      simp only [hs, hf, ne_eq, not_false_eq_true, if_true, List.append_assoc,
        List.singleton_append, true_and]
      exact fun k => testBit_or_FLAG_TRACE_BIT _ k

/-- C7 (amended) at a fully valid context with `step` set. -/
theorem child_resume_step_sets_trace_bit_witness :
    ∃ s1, child_resume (imageOS (fun _ => none) []) 0 1 target_signal.TARGET_SIGNAL_0
        { zeroState with context := { zeroContext with ContextFlags := CONTEXT_FULL } }
        = some s1 ∧
      (∀ c ∈ s1.trace.drop 0, c.isGetThreadContext = false) ∧
      (if (1 : Int) ≠ 0 then
        s1.trace = [] ++
          [Call.SetThreadContext 0
            { { zeroContext with ContextFlags := CONTEXT_FULL } with
              EFlags := 0 ||| FLAG_TRACE_BIT },
           Call.ContinueDebugEvent 0 0 DBG_CONTINUE] ∧
        ∀ k, (0 ||| FLAG_TRACE_BIT).testBit k = (decide (k = 8) || (0 : Nat).testBit k)
       else
        s1.context.EFlags = 0 ∧
        writtenSlots ContextLoc.EFlags 4 (s1.trace.drop 0)
          = (if CONTEXT_FULL ≠ 0 then [dwordBytes 0] else [])) :=
  child_resume_step_sets_trace_bit (imageOS (fun _ => none) []) 0 1
    target_signal.TARGET_SIGNAL_0
    { zeroState with context := { zeroContext with ContextFlags := CONTEXT_FULL } }
    (fun _ => by decide)

/-- C7 as stated fails.  On the initial statics the control group is not valid
(the mask is zero); `child_resume` with `step` set then neither fetches a
group from the system nor hands it any context: its only call is the
`ContinueDebugEvent`. -/
theorem step_request_lost_on_empty_mask :
    zeroState.context.ContextFlags &&& CONTEXT_CONTROL = 0 ∧
    (child_resume (imageOS (fun _ => none) []) 0 1 target_signal.TARGET_SIGNAL_0 zeroState).map
      (fun s => (s.trace.any Call.isGetThreadContext, s.trace.any Call.isSetThreadContext,
        s.trace.length)) = some (false, false, 1) := by
  constructor <;> decide

/-! ### Memory access bridge -/

/-- C8: with `write` non-zero `child_xfer_memory` makes one `WriteProcessMemory`
of the `len` bytes of `our` at `memaddr`, then one `FlushInstructionCache` over
the same address and length, whatever the write transferred, and returns the
count the write reported; with `write` zero it makes one `ReadProcessMemory`
and nothing else, and returns the count the read reported. -/
theorem child_xfer_memory_calls (os : OS) (memaddr : Nat) (our : List Nat) (len : Nat)
    (write : Int) (s : State) :
    let r := child_xfer_memory os memaddr our len write s
    if write ≠ 0 then
      r.2.2.trace = s.trace ++
        [Call.WriteProcessMemory s.current_process memaddr our len,
         Call.FlushInstructionCache s.current_process memaddr len] ∧
      r.1 = os.WriteProcessMemory
        (s.trace ++ [Call.WriteProcessMemory s.current_process memaddr our len])
    else
      r.2.2.trace = s.trace ++ [Call.ReadProcessMemory s.current_process memaddr len] ∧
      r.1 = (os.ReadProcessMemory
        (s.trace ++ [Call.ReadProcessMemory s.current_process memaddr len])).done ∧
      r.2.1 = (os.ReadProcessMemory
        (s.trace ++ [Call.ReadProcessMemory s.current_process memaddr len])).buffer := by
  by_cases hw : write = 0 <;> simp [child_xfer_memory, hw, State.call]

/-! ### Debug event loop -/

theorem Quiet_refl (s : State) : Quiet s s := ⟨rfl, rfl, rfl⟩

theorem Quiet_trans {s t u : State} (h1 : Quiet s t) (h2 : Quiet t u) : Quiet s u :=
  ⟨h2.1.trans h1.1, h2.2.1.trans h1.2.1, h2.2.2.trans h1.2.2⟩

theorem Quiet_call (s : State) (c : Call) (hc : c.isWaitOrContinue = false) :
    Quiet s (s.call c) := by
  refine ⟨rfl, rfl, ?_⟩
  simp [State.call, List.filter_append, hc]

theorem GetThreadContext_quiet (os : OS) (h : Nat) (s : State) :
    Quiet s (GetThreadContext os h s) := by
  refine ⟨rfl, rfl, ?_⟩
  simp [GetThreadContext, State.call, List.filter_append, Call.isWaitOrContinue]

theorem ReadsOnly_refl (s : State) : ReadsOnly s s :=
  ⟨rfl, rfl, [], by simp, by simp⟩

theorem ReadsOnly_trans {s t u : State} (h1 : ReadsOnly s t) (h2 : ReadsOnly t u) :
    ReadsOnly s u := by
  obtain ⟨a1, b1, e1, t1, c1⟩ := h1
  obtain ⟨a2, b2, e2, t2, c2⟩ := h2
  refine ⟨a2.trans a1, b2.trans b1, e1 ++ e2, ?_, ?_⟩
  · rw [t2, t1, List.append_assoc]
  · intro c hc
    rcases List.mem_append.mp hc with h | h
    · exact c1 c h
    · exact c2 c h

theorem ReadsOnly_read (s : State) (h a n : Nat) :
    ReadsOnly s (s.call (Call.ReadProcessMemory h a n)) :=
  ⟨rfl, rfl, [Call.ReadProcessMemory h a n], rfl, by simp⟩

theorem ReadsOnly_quiet {s t : State} (h : ReadsOnly s t) : Quiet s t := by
  obtain ⟨a, b, e, ht, hc⟩ := h
  refine ⟨a, b, ?_⟩
  have he : e.filter Call.isWaitOrContinue = [] := by
    rw [List.filter_eq_nil_iff]
    intro c hce
    obtain ⟨h, a, n, rfl⟩ := hc c hce
    simp [Call.isWaitOrContinue]
  rw [ht, List.filter_append, he, List.append_nil]

theorem ReadsOnly_registered {s t : State} (h : ReadsOnly s t) :
    registeredModules t.trace = registeredModules s.trace := by
  obtain ⟨-, -, e, ht, hc⟩ := h
  have he : registeredModules e = [] := by
    unfold registeredModules
    rw [List.filterMap_eq_nil_iff]
    intro c hce
    obtain ⟨h, a, n, rfl⟩ := hc c hce
    rfl
  rw [ht]
  unfold registeredModules at he ⊢
  rw [List.filterMap_append, he, List.append_nil]

theorem dll_name_scan_reads (os : OS) (ptr size : Nat) :
    ∀ (fuel len : Nat) (s : State) (n : Nat) (t : State),
      dll_name_scan os ptr size fuel len s = some (n, t) → ReadsOnly s t := by
  intro fuel
  induction fuel with
  | zero => intro len s n t h; simp [dll_name_scan] at h
  | succ k ih =>
    intro len s n t h
    have hq := ReadsOnly_read s s.current_process ((ptr + len * size) % 2 ^ 32) size
    simp only [dll_name_scan] at h
    split at h
    · exact ReadsOnly_trans hq (ih _ _ _ _ h)
    · simp only [Option.some.injEq, Prod.mk.injEq] at h
      rw [← h.2]
      exact hq

theorem read_dll_name_reads (os : OS) (event : DEBUG_EVENT) (s t : State)
    (name : Option (List Nat)) (h : read_dll_name os event s = some (t, name)) :
    ReadsOnly s t := by
  have hq := ReadsOnly_read s s.current_process event.u.LoadDll.lpImageName 4
  simp only [read_dll_name] at h
  split at h
  · split at h
    · simp at h
    · rename_i len s2 hscan
      have hq2 := dll_name_scan_reads os _ _ _ _ _ _ _ hscan
      split at h
      · simp only [Option.some.injEq, Prod.mk.injEq] at h
        rw [← h.1]
        exact ReadsOnly_trans (ReadsOnly_trans hq hq2) (ReadsOnly_read _ _ _ _)
      · simp only [Option.some.injEq, Prod.mk.injEq] at h
        rw [← h.1]
        exact ReadsOnly_trans (ReadsOnly_trans hq hq2) (ReadsOnly_read _ _ _ _)
  · simp only [Option.some.injEq, Prod.mk.injEq] at h
    rw [← h.1]
    exact hq

theorem read_dll_name_quiet (os : OS) (event : DEBUG_EVENT) (s t : State)
    (name : Option (List Nat)) (h : read_dll_name os event s = some (t, name)) :
    Quiet s t :=
  ReadsOnly_quiet (read_dll_name_reads os event s t name h)

theorem handle_load_dll_quiet (os : OS) (event : DEBUG_EVENT) (s t : State) (r : Int)
    (h : handle_load_dll os event s = some (r, t)) : Quiet s t := by
  simp only [handle_load_dll] at h
  split at h
  · simp at h
  · rename_i s1 hr
    simp only [Option.some.injEq, Prod.mk.injEq] at h
    rw [← h.2]
    exact read_dll_name_quiet os event s s1 none hr
  · rename_i s1 dll_name hr
    have hq := read_dll_name_quiet os event s s1 (some dll_name) hr
    split at h
    · simp only [Option.some.injEq, Prod.mk.injEq] at h
      rw [← h.2]
      exact hq
    · simp only [Option.some.injEq, Prod.mk.injEq] at h
      rw [← h.2]
      refine Quiet_trans hq (Quiet_trans ?_ (Quiet_call _ _ rfl))
      exact Quiet_trans ⟨rfl, rfl, rfl⟩ (GetThreadContext_quiet os _ _)

theorem handle_exception_quiet (os : OS) (event : DEBUG_EVENT) (st : target_waitstatus)
    (s : State) : Quiet s (handle_exception os event st s).2.2 := by
  cases h : handle_exception_switch event <;>
    simp [handle_exception, h, Quiet, GetThreadContext, State.call, List.filter_append,
      Call.isWaitOrContinue]

theorem child_wait_switch_acknowledge (os : OS) (e : DEBUG_EVENT) (st : target_waitstatus)
    (s : State) (hstop : stops e = false)
    (hscan : e.dwDebugEventCode = LOAD_DLL_DEBUG_EVENT →
      ∀ t, (handle_load_dll os e t).isSome = true) :
    ∃ st1 s1, child_wait_switch os e st s = some (Round.acknowledge (disposition e) st1 s1) ∧
      s1.current_process_id = e.dwProcessId ∧ s1.current_thread_id = e.dwThreadId ∧
      s1.trace.filter Call.isWaitOrContinue = s.trace.filter Call.isWaitOrContinue := by
  simp only [stops, Bool.or_eq_false_iff, decide_eq_false_iff_not, Bool.and_eq_false_iff]
    at hstop
  obtain ⟨hexit, hexc⟩ := hstop
  by_cases h7 : e.dwDebugEventCode = EXCEPTION_DEBUG_EVENT
  · have hsw : handle_exception_switch e = none := by
      rcases hexc with h | h
      · exact absurd h7 h
      · cases hsw : handle_exception_switch e with
        | none => rfl
        | some sig => simp [hsw] at h
    have hd : disposition e = DBG_EXCEPTION_NOT_HANDLED := by simp [disposition, h7, hsw]
    refine ⟨{ st with kind := target_waitkind.TARGET_WAITKIND_STOPPED },
      { s with event_count := s.event_count + 1,
               current_thread_id := e.dwThreadId,
               current_process_id := e.dwProcessId }, ?_, rfl, rfl, rfl⟩
    simp [child_wait_switch, h7, hd, handle_exception, hsw, EXCEPTION_DEBUG_EVENT,
      CREATE_THREAD_DEBUG_EVENT, EXIT_THREAD_DEBUG_EVENT, CREATE_PROCESS_DEBUG_EVENT,
      EXIT_PROCESS_DEBUG_EVENT, LOAD_DLL_DEBUG_EVENT, UNLOAD_DLL_DEBUG_EVENT]
  · have hd : disposition e = DBG_CONTINUE := by simp [disposition, h7]
    rw [hd]
    by_cases h5 : e.dwDebugEventCode = LOAD_DLL_DEBUG_EVENT
    · have hsome := hscan h5 { s with event_count := s.event_count + 1,
                                      current_thread_id := e.dwThreadId,
                                      current_process_id := e.dwProcessId }
      obtain ⟨⟨r, t⟩, ht⟩ := Option.isSome_iff_exists.mp hsome
      have hq := handle_load_dll_quiet os e _ t r ht
      refine ⟨st, t.call Call.registers_changed, ?_, ?_, ?_, ?_⟩
      · simp [child_wait_switch, h5, ht, LOAD_DLL_DEBUG_EVENT, CREATE_THREAD_DEBUG_EVENT,
          EXIT_THREAD_DEBUG_EVENT, CREATE_PROCESS_DEBUG_EVENT, EXIT_PROCESS_DEBUG_EVENT]
      · exact hq.1
      · exact hq.2.1
      · rw [(Quiet_call t Call.registers_changed rfl).2.2, hq.2.2]
    · by_cases h8 : e.dwDebugEventCode = OUTPUT_DEBUG_STRING_EVENT
      · refine ⟨st, State.call { s with event_count := s.event_count + 1,
                                        current_thread_id := e.dwThreadId,
                                        current_process_id := e.dwProcessId }
            (Call.target_read_string e.u.DebugString.lpDebugStringData 1024), ?_, rfl, rfl, ?_⟩
        · simp [child_wait_switch, h8, OUTPUT_DEBUG_STRING_EVENT, LOAD_DLL_DEBUG_EVENT,
            CREATE_THREAD_DEBUG_EVENT, EXIT_THREAD_DEBUG_EVENT, CREATE_PROCESS_DEBUG_EVENT,
            EXIT_PROCESS_DEBUG_EVENT, UNLOAD_DLL_DEBUG_EVENT, EXCEPTION_DEBUG_EVENT]
        · simp [State.call, List.filter_append, Call.isWaitOrContinue]
      · refine ⟨st, { s with event_count := s.event_count + 1,
                             current_thread_id := e.dwThreadId,
                             current_process_id := e.dwProcessId }, ?_, rfl, rfl, rfl⟩
        simp only [child_wait_switch, hexit, h5, h7, h8, if_false]
        split_ifs <;> rfl

theorem child_wait_switch_returns (os : OS) (e : DEBUG_EVENT) (st : target_waitstatus)
    (s : State) (hstop : stops e = true) :
    ∃ st1 s1, child_wait_switch os e st s = some (Round.returned e.dwProcessId st1 s1) ∧
      s1.trace.filter Call.isWaitOrContinue = s.trace.filter Call.isWaitOrContinue ∧
      ((e.dwDebugEventCode = EXIT_PROCESS_DEBUG_EVENT ∧
          st1 = ⟨target_waitkind.TARGET_WAITKIND_EXITED,
            waitstatus_value.integer e.u.ExitProcess.dwExitCode⟩) ∨
       (e.dwDebugEventCode = EXCEPTION_DEBUG_EVENT ∧
          ∃ sig, handle_exception_switch e = some sig ∧
            st1 = ⟨target_waitkind.TARGET_WAITKIND_STOPPED, waitstatus_value.sig sig⟩)) := by
  simp only [stops, Bool.or_eq_true, decide_eq_true_eq, Bool.and_eq_true] at hstop
  by_cases hexit : e.dwDebugEventCode = EXIT_PROCESS_DEBUG_EVENT
  · refine ⟨_, State.call (State.call
        { s with event_count := s.event_count + 1,
                 current_thread_id := e.dwThreadId,
                 current_process_id := e.dwProcessId } (Call.CloseHandle s.current_process))
        (Call.CloseHandle s.current_thread), ?_, ?_, Or.inl ⟨hexit, rfl⟩⟩
    · simp only [child_wait_switch, hexit]
      rfl
    · simp [State.call, List.filter_append, Call.isWaitOrContinue]
  · rcases hstop with h | ⟨h7, hsome⟩
    · exact absurd h hexit
    · obtain ⟨sig, hsig⟩ := Option.isSome_iff_exists.mp hsome
      have hq := handle_exception_quiet os e st
        { s with event_count := s.event_count + 1,
                 current_thread_id := e.dwThreadId,
                 current_process_id := e.dwProcessId }
      refine ⟨⟨target_waitkind.TARGET_WAITKIND_STOPPED, waitstatus_value.sig sig⟩,
        (handle_exception os e st
          { s with event_count := s.event_count + 1,
                   current_thread_id := e.dwThreadId,
                   current_process_id := e.dwProcessId }).2.2,
        ?_, hq.2.2, Or.inr ⟨h7, sig, hsig, rfl⟩⟩
      have hpid := hq.1
      simp only [handle_exception, hsig] at hpid ⊢
      simp [child_wait_switch, h7, handle_exception, hsig, EXCEPTION_DEBUG_EVENT,
        CREATE_THREAD_DEBUG_EVENT, EXIT_THREAD_DEBUG_EVENT, CREATE_PROCESS_DEBUG_EVENT,
        EXIT_PROCESS_DEBUG_EVENT, LOAD_DLL_DEBUG_EVENT, UNLOAD_DLL_DEBUG_EVENT]
      exact hpid

theorem child_wait_never_returns (os : OS) (pid : Int) :
    ∀ (pre : List WaitOutcome) (st : target_waitstatus) (s : State),
      (∀ x ∈ pre, stops x.event = false) → child_wait os pid pre st s = none := by
  intro pre
  induction pre with
  | nil => intro st s _; rfl
  | cons x xs ih =>
    intro st s hpre
    have hx : stops x.event = false := hpre x (List.mem_cons_self _ _)
    have hxs : ∀ y ∈ xs, stops y.event = false := fun y hy => hpre y (List.mem_cons_of_mem _ hy)
    simp only [child_wait]
    cases hsw : child_wait_switch os x.event st (s.call Call.WaitForDebugEvent) with
    | none => rfl
    | some r =>
      cases r with
      | returned p st1 s1 =>
        exfalso
        by_cases hl : x.event.dwDebugEventCode = LOAD_DLL_DEBUG_EVENT
        · simp only [child_wait_switch, hl] at hsw
          simp [LOAD_DLL_DEBUG_EVENT, CREATE_THREAD_DEBUG_EVENT, EXIT_THREAD_DEBUG_EVENT,
            CREATE_PROCESS_DEBUG_EVENT, EXIT_PROCESS_DEBUG_EVENT] at hsw
          split at hsw <;> simp at hsw
        · obtain ⟨st2, s2, h2, -⟩ := child_wait_switch_acknowledge os x.event st
            (s.call Call.WaitForDebugEvent) hx (fun h => absurd h hl)
          rw [h2] at hsw
          simp at hsw
      | acknowledge cs st1 s1 => exact ih _ _ hxs

theorem child_wait_run (os : OS) (pid : Int) (w : WaitOutcome) (post : List WaitOutcome)
    (hw : stops w.event = true) :
    ∀ (pre : List WaitOutcome) (st : target_waitstatus) (s : State),
      (∀ x ∈ pre, stops x.event = false) →
      (∀ x ∈ pre, x.event.dwDebugEventCode = LOAD_DLL_DEBUG_EVENT →
        ∀ t, (handle_load_dll os x.event t).isSome = true) →
      ∃ r, child_wait os pid (pre ++ w :: post) st s = some r ∧
        r.rest = post ∧ r.pid = w.event.dwProcessId ∧
        r.state.trace.filter Call.isWaitOrContinue
          = s.trace.filter Call.isWaitOrContinue ++ acknowledgements pre
              ++ [Call.WaitForDebugEvent] ∧
        ((w.event.dwDebugEventCode = EXIT_PROCESS_DEBUG_EVENT ∧
            r.ourstatus = ⟨target_waitkind.TARGET_WAITKIND_EXITED,
              waitstatus_value.integer w.event.u.ExitProcess.dwExitCode⟩) ∨
         (w.event.dwDebugEventCode = EXCEPTION_DEBUG_EVENT ∧
            ∃ sig, handle_exception_switch w.event = some sig ∧
              r.ourstatus
                = ⟨target_waitkind.TARGET_WAITKIND_STOPPED, waitstatus_value.sig sig⟩)) := by
  intro pre
  induction pre with
  | nil =>
    intro st s _ _
    obtain ⟨st1, s1, h1, htr, hst⟩ :=
      child_wait_switch_returns os w.event st (s.call Call.WaitForDebugEvent) hw
    refine ⟨⟨w.event.dwProcessId, st1, s1, post⟩, ?_, rfl, rfl, ?_, hst⟩
    · simp [child_wait, h1]
    · simp [htr, State.call, List.filter_append, Call.isWaitOrContinue, acknowledgements]
  | cons x xs ih =>
    intro st s hpre hscan
    have hx : stops x.event = false := hpre x (List.mem_cons_self _ _)
    have hxs : ∀ y ∈ xs, stops y.event = false := fun y hy => hpre y (List.mem_cons_of_mem _ hy)
    obtain ⟨st1, s1, h1, hp, ht, htr⟩ := child_wait_switch_acknowledge os x.event st
      (s.call Call.WaitForDebugEvent) hx (hscan x (List.mem_cons_self _ _))
    obtain ⟨r, hr, hrest, hpid, hrtr, hst⟩ := ih st1
      (s1.call (Call.ContinueDebugEvent s1.current_process_id s1.current_thread_id
        (disposition x.event))) hxs (fun y hy => hscan y (List.mem_cons_of_mem _ hy))
    refine ⟨r, ?_, hrest, hpid, ?_, hst⟩
    · simp only [List.cons_append, child_wait, h1]
      exact hr
    · rw [hrtr]
      simp [State.call, List.filter_append, Call.isWaitOrContinue, acknowledgements, htr, hp, ht]

theorem handle_load_dll_unmapped (ev : DEBUG_EVENT) (t : State) :
    (handle_load_dll (imageOS (fun _ => none) []) ev t).isSome = true := by
  simp [handle_load_dll, read_dll_name, imageOS, State.call]

/-- C3: when the events before `w` are none of them an exit-process event or
an interesting exception, and `w` is one, `child_wait` returns at `w` and at no
earlier event (on the earlier events alone it never returns); the returned
pid is the process id of `w`, and the status is Exited with the exit code of
`w` for an exit-process event, Stopped with the classifier's signal for an
exception.  The module-name scans of the load events met are taken to end. -/
theorem child_wait_returns_at_first_stop (os : OS) (pid : Int) (pre : List WaitOutcome)
    (w : WaitOutcome) (post : List WaitOutcome) (st : target_waitstatus) (s : State)
    (hpre : ∀ x ∈ pre, stops x.event = false) (hw : stops w.event = true)
    (hscan : ∀ x ∈ pre, x.event.dwDebugEventCode = LOAD_DLL_DEBUG_EVENT →
      ∀ t, (handle_load_dll os x.event t).isSome = true) :
    child_wait os pid pre st s = none ∧
    ∃ r, child_wait os pid (pre ++ w :: post) st s = some r ∧
      r.rest = post ∧ r.pid = w.event.dwProcessId ∧
      ((w.event.dwDebugEventCode = EXIT_PROCESS_DEBUG_EVENT ∧
          r.ourstatus = ⟨target_waitkind.TARGET_WAITKIND_EXITED,
            waitstatus_value.integer w.event.u.ExitProcess.dwExitCode⟩) ∨
       (w.event.dwDebugEventCode = EXCEPTION_DEBUG_EVENT ∧
          ∃ sig, handle_exception_switch w.event = some sig ∧
            r.ourstatus
              = ⟨target_waitkind.TARGET_WAITKIND_STOPPED, waitstatus_value.sig sig⟩)) := by
  refine ⟨child_wait_never_returns os pid pre st s hpre, ?_⟩
  obtain ⟨r, h1, h2, h3, -, h5⟩ := child_wait_run os pid w post hw pre st s hpre hscan
  exact ⟨r, h1, h2, h3, h5⟩

/-- C3 on a load-module event and a first-chance exception outside the table
followed by an exit-process event with exit code 3. -/
theorem child_wait_returns_at_first_stop_witness :
    child_wait (imageOS (fun _ => none) []) 0 [⟨true, loadEvent⟩, ⟨true, firstChanceEvent⟩]
      ⟨target_waitkind.TARGET_WAITKIND_SPURIOUS, waitstatus_value.integer 0⟩ zeroState = none ∧
    ∃ r, child_wait (imageOS (fun _ => none) []) 0
        ([⟨true, loadEvent⟩, ⟨true, firstChanceEvent⟩] ++ ⟨true, exitEvent⟩ :: [])
        ⟨target_waitkind.TARGET_WAITKIND_SPURIOUS, waitstatus_value.integer 0⟩ zeroState
        = some r ∧
      r.rest = [] ∧ r.pid = 7 ∧
      ((exitEvent.dwDebugEventCode = EXIT_PROCESS_DEBUG_EVENT ∧
          r.ourstatus = ⟨target_waitkind.TARGET_WAITKIND_EXITED, waitstatus_value.integer 3⟩) ∨
       (exitEvent.dwDebugEventCode = EXCEPTION_DEBUG_EVENT ∧
          ∃ sig, handle_exception_switch exitEvent = some sig ∧
            r.ourstatus
              = ⟨target_waitkind.TARGET_WAITKIND_STOPPED, waitstatus_value.sig sig⟩)) :=
  child_wait_returns_at_first_stop (imageOS (fun _ => none) []) 0
    [⟨true, loadEvent⟩, ⟨true, firstChanceEvent⟩] ⟨true, exitEvent⟩ []
    ⟨target_waitkind.TARGET_WAITKIND_SPURIOUS, waitstatus_value.integer 0⟩ zeroState
    (by decide) (by decide) (fun _ _ _ t => handle_load_dll_unmapped _ t)

/-- C4: in a call of `child_wait` that returns at `w`, the waits and
acknowledgements made are, in order, for every earlier event one
`WaitForDebugEvent` followed by one `ContinueDebugEvent` with that event's
process id and thread id, the disposition being "exception not handled" for a
not-interesting exception and the default otherwise, and then the
`WaitForDebugEvent` that delivers `w`, which is not acknowledged.  The
module-name scans of the load events met are taken to end. -/
theorem child_wait_acknowledges_each_event (os : OS) (pid : Int) (pre : List WaitOutcome)
    (w : WaitOutcome) (post : List WaitOutcome) (st : target_waitstatus) (s : State)
    (hpre : ∀ x ∈ pre, stops x.event = false) (hw : stops w.event = true)
    (hscan : ∀ x ∈ pre, x.event.dwDebugEventCode = LOAD_DLL_DEBUG_EVENT →
      ∀ t, (handle_load_dll os x.event t).isSome = true) :
    ∃ r, child_wait os pid (pre ++ w :: post) st s = some r ∧
      r.state.trace.filter Call.isWaitOrContinue
        = s.trace.filter Call.isWaitOrContinue ++ acknowledgements pre
            ++ [Call.WaitForDebugEvent] := by
  obtain ⟨r, h1, -, -, h4, -⟩ := child_wait_run os pid w post hw pre st s hpre hscan
  exact ⟨r, h1, h4⟩

/-- C4 on a load-module event and a first-chance exception outside the table
followed by a breakpoint: the load event is acknowledged with the default
disposition, the exception with "exception not handled", the breakpoint not
at all. -/
theorem child_wait_acknowledges_each_event_witness :
    ∃ r, child_wait (imageOS (fun _ => none) []) 0
        ([⟨true, loadEvent⟩, ⟨true, firstChanceEvent⟩] ++ ⟨true, breakpointEvent⟩ :: [])
        ⟨target_waitkind.TARGET_WAITKIND_SPURIOUS, waitstatus_value.integer 0⟩ zeroState
        = some r ∧
      r.state.trace.filter Call.isWaitOrContinue
        = zeroState.trace.filter Call.isWaitOrContinue
            ++ acknowledgements [⟨true, loadEvent⟩, ⟨true, firstChanceEvent⟩]
            ++ [Call.WaitForDebugEvent] :=
  child_wait_acknowledges_each_event (imageOS (fun _ => none) []) 0
    [⟨true, loadEvent⟩, ⟨true, firstChanceEvent⟩] ⟨true, breakpointEvent⟩ []
    ⟨target_waitkind.TARGET_WAITKIND_SPURIOUS, waitstatus_value.integer 0⟩ zeroState
    (by decide) (by decide) (fun _ _ _ t => handle_load_dll_unmapped _ t)

/-! ### Module load notifier -/

theorem strrchr_none (c : Nat) : ∀ (b : List Nat), c ∉ b → strrchr b c = none := by
  intro b
  induction b with
  | nil => intro _; rfl
  | cons x xs ih =>
    intro h
    have hx : x ≠ c := fun e => h (by simp [e])
    have hxs : c ∉ xs := fun e => h (List.mem_cons_of_mem _ e)
    simp [strrchr, ih hxs, hx]

theorem strrchr_last (c : Nat) (b : List Nat) (hb : c ∉ b) :
    ∀ (p : List Nat), strrchr (p ++ c :: b) c = some (c :: b) := by
  intro p
  induction p with
  | nil => simp [strrchr, strrchr_none c b hb]
  | cons x xs ih => simp [strrchr, ih]

theorem after_last_last (c : Nat) (p b : List Nat) (hb : c ∉ b) :
    after_last c (p ++ c :: b) = b := by
  have h1 : ∀ a ∈ b.reverse, (fun x => decide (x ≠ c)) a = true := by
    intro a ha
    have : a ≠ c := fun e => hb (e ▸ List.mem_reverse.mp ha)
    simpa using this
  simp only [after_last, List.reverse_append, List.reverse_cons, List.append_assoc]
  rw [List.takeWhile_append_of_pos h1]
  simp

theorem last_occurrence (c : Nat) (name : List Nat) (h : c ∈ name) :
    ∃ p b, name = p ++ c :: b ∧ c ∉ b := by
  have hr : c ∈ name.reverse := List.mem_reverse.mpr h
  obtain ⟨as, bs, hn, has⟩ := List.eq_append_cons_of_mem hr
  refine ⟨bs.reverse, as.reverse, ?_, ?_⟩
  · have := congrArg List.reverse hn
    simpa using this
  · simpa using has

theorem strrchr_eq (c : Nat) (name : List Nat) :
    (strrchr name c).map (fun q => q.drop 1)
      = if c ∈ name then some (after_last c name) else none := by
  by_cases h : c ∈ name
  · obtain ⟨p, b, rfl, hb⟩ := last_occurrence c name h
    rw [strrchr_last c b hb p, after_last_last c p b hb]
    simp
  · simp [strrchr_none c name h, h]

theorem code_base_name (name : List Nat) :
    (match strrchr name 92 with
      | some q => some q
      | none => strrchr name 47).map (fun q : List Nat => q.drop 1) = base_name name := by
  have h92 := strrchr_eq 92 name
  have h47 := strrchr_eq 47 name
  unfold base_name
  by_cases h : 92 ∈ name
  · rw [if_pos h] at h92 ⊢
    cases hs : strrchr name 92 with
    | none => simp [hs] at h92
    | some q => simpa [hs] using h92
  · rw [if_neg h]
    rw [strrchr_none 92 name h]
    exact h47

theorem objfile_matches_iff (d : Option (List Nat)) (o : List Nat) :
    objfile_matches d o = true
      ↔ ∃ b, d.map (fun q : List Nat => q.drop 1) = some b ∧ base_name o = some b := by
  rw [← code_base_name o]
  unfold objfile_matches
  generalize (match strrchr o 92 with
      | some q => some q
      | none => strrchr o 47) = oq
  cases d <;> cases oq <;> simp
  rename_i x y
  constructor
  · intro h; exact h.symm
  · intro h; exact h.symm

/-- C9 (amended): when the module name of a load-module event could be read
and some objfile known at that point has the same base name as it, where the
base name of a path is the text after its last backslash if it has one,
otherwise the text after its last slash, and a path with neither has none,
`handle_load_dll` returns 1 without any `symbol_file_add` call. -/
theorem known_base_name_is_not_registered (os : OS) (event : DEBUG_EVENT) (s : State)
    (dll_name : List Nat)
    (hname : (read_dll_name os event s).map Prod.snd = some (some dll_name))
    (hknown : ∀ s1, read_dll_name os event s = some (s1, some dll_name) →
      ∃ o ∈ os.object_files s1.trace,
        ∃ b, base_name dll_name = some b ∧ base_name o = some b) :
    (handle_load_dll os event s).map (fun r => (r.1, registeredModules r.2.trace))
      = some (1, registeredModules s.trace) := by
  cases hr : read_dll_name os event s with
  | none => simp [hr] at hname
  | some r =>
    obtain ⟨s1, name⟩ := r
    have hn : name = some dll_name := by simpa [hr] using hname
    subst hn
    obtain ⟨o, ho, b, hb1, hb2⟩ := hknown s1 hr
    have hany : (os.object_files s1.trace).any
        (objfile_matches (match strrchr dll_name 92 with
          | some q => some q
          | none => strrchr dll_name 47)) = true := by
      rw [List.any_eq_true]
      exact ⟨o, ho, (objfile_matches_iff _ o).mpr ⟨b, by rw [code_base_name]; exact hb1, hb2⟩⟩
    simp only [handle_load_dll, hr, hany, if_true, Option.map_some']
    rw [ReadsOnly_registered (read_dll_name_reads os event s s1 _ hr)]

/-- C9 (amended) on the module `C:\lib\foo.dll` when the objfile
`/usr/lib/foo.dll` is known. -/
theorem known_base_name_is_not_registered_witness :
    (handle_load_dll
        (imageOS (nameImage (bytes "C:\\lib\\foo.dll")) [bytes "/usr/lib/foo.dll"])
        namedLoadEvent zeroState).map (fun r => (r.1, registeredModules r.2.trace))
      = some (1, registeredModules zeroState.trace) :=
  known_base_name_is_not_registered
    (imageOS (nameImage (bytes "C:\\lib\\foo.dll")) [bytes "/usr/lib/foo.dll"])
    namedLoadEvent zeroState (bytes "C:\\lib\\foo.dll") (by decide)
    (fun _ _ => ⟨bytes "/usr/lib/foo.dll", by simp [imageOS], bytes "foo.dll",
      by decide, by decide⟩)

/-- C9 as stated fails.  The module `C:\lib/foo.dll` and the known objfile
`/usr/lib/foo.dll` have the same final path component, and the module
`foo.dll` is known under that very name, yet in both cases `handle_load_dll`
calls `symbol_file_add`. -/
theorem same_final_component_registered_again :
    final_component (bytes "C:\\lib/foo.dll") = final_component (bytes "/usr/lib/foo.dll") ∧
    (handle_load_dll
        (imageOS (nameImage (bytes "C:\\lib/foo.dll")) [bytes "/usr/lib/foo.dll"])
        namedLoadEvent zeroState).map (fun r => registeredModules r.2.trace)
      = some [(bytes "C:\\lib/foo.dll", 0x10001000)] ∧
    final_component (bytes "foo.dll") = final_component (bytes "foo.dll") ∧
    (handle_load_dll (imageOS (nameImage (bytes "foo.dll")) [bytes "foo.dll"])
        namedLoadEvent zeroState).map (fun r => registeredModules r.2.trace)
      = some [(bytes "foo.dll", 0x10001000)] := by
  refine ⟨by decide, by decide, rfl, by decide⟩

/-! ### Kill -/

theorem drain_calls_cons (pid tid : Nat) (x : WaitOutcome) (xs : List WaitOutcome) :
    drain_calls pid tid (x :: xs)
      = [Call.ContinueDebugEvent pid tid DBG_CONTINUE, Call.WaitForDebugEvent]
          ++ drain_calls x.event.dwProcessId x.event.dwThreadId xs := by
  simp [drain_calls]

theorem child_kill_inferior_loop_run (os : OS) (stopper : Option WaitOutcome)
    (post : List WaitOutcome) :
    ∀ (pre : List WaitOutcome) (s : State),
      (∀ x ∈ pre, x.ok = true ∧ x.event.dwDebugEventCode ≠ EXIT_PROCESS_DEBUG_EVENT) →
      (∀ k < pre.length, os.ContinueDebugEvent
        (s.trace ++ drain_calls s.current_process_id s.current_thread_id (pre.take k)) = true) →
      (match stopper with
        | none => os.ContinueDebugEvent
            (s.trace ++ drain_calls s.current_process_id s.current_thread_id pre) = false
        | some w => os.ContinueDebugEvent
            (s.trace ++ drain_calls s.current_process_id s.current_thread_id pre) = true ∧
            (w.ok = false ∨ w.event.dwDebugEventCode = EXIT_PROCESS_DEBUG_EVENT)) →
      ∃ s1, child_kill_inferior_loop os (pre ++ stopper.toList ++ post) s = some (s1, post) ∧
        s1.current_process = s.current_process ∧ s1.current_thread = s.current_thread ∧
        s1.trace = s.trace ++ drain_calls s.current_process_id s.current_thread_id pre
          ++ (if stopper.isSome then [Call.WaitForDebugEvent] else []) := by
  intro pre
  induction pre with
  | nil =>
    intro s _ _ hstop
    cases stopper with
    | none =>
      simp only [drain_calls, List.flatMap_nil] at hstop
      refine ⟨s.call (Call.ContinueDebugEvent s.current_process_id s.current_thread_id
        DBG_CONTINUE), ?_, rfl, rfl, ?_⟩
      · cases post <;> simp [child_kill_inferior_loop, State.call, hstop]
      · simp [State.call, drain_calls]
    | some w =>
      simp only [drain_calls, List.flatMap_nil] at hstop
      obtain ⟨hack, hw⟩ := hstop
      by_cases hok : w.ok = false
      · refine ⟨(s.call (Call.ContinueDebugEvent s.current_process_id s.current_thread_id
          DBG_CONTINUE)).call Call.WaitForDebugEvent, ?_, rfl, rfl, ?_⟩
        · simp [child_kill_inferior_loop, State.call, hack, hok]
        · simp [State.call, drain_calls]
      · have hexit : w.event.dwDebugEventCode = EXIT_PROCESS_DEBUG_EVENT := by
          rcases hw with h | h
          · exact absurd h hok
          · exact h
        refine ⟨{ (s.call (Call.ContinueDebugEvent s.current_process_id s.current_thread_id
            DBG_CONTINUE)).call Call.WaitForDebugEvent with
              current_thread_id := w.event.dwThreadId,
              current_process_id := w.event.dwProcessId }, ?_, rfl, rfl, ?_⟩
        · simp [child_kill_inferior_loop, State.call, hack, hok, hexit]
        · simp [State.call, drain_calls]
  | cons x xs ih =>
    intro s hpre hacks hstop
    obtain ⟨hxok, hxne⟩ := hpre x (List.mem_cons_self _ _)
    have hack0 : os.ContinueDebugEvent (s.trace ++
        [Call.ContinueDebugEvent s.current_process_id s.current_thread_id DBG_CONTINUE])
        = true := by
      have := hacks 0 (by simp)
      simpa [drain_calls] using this
    obtain ⟨s1, h1, hp, ht, htr⟩ := ih
      { (s.call (Call.ContinueDebugEvent s.current_process_id s.current_thread_id
          DBG_CONTINUE)).call Call.WaitForDebugEvent with
            current_thread_id := x.event.dwThreadId,
            current_process_id := x.event.dwProcessId }
      (fun y hy => hpre y (List.mem_cons_of_mem _ hy))
      (by
        intro k hk
        have := hacks (k + 1) (by simp; omega)
        simpa [State.call, drain_calls_cons] using this)
      (by
        cases stopper with
        | none => simpa [State.call, drain_calls_cons] using hstop
        | some w => simpa [State.call, drain_calls_cons] using hstop)
    refine ⟨s1, ?_, hp, ht, ?_⟩
    · simp only [List.cons_append, child_kill_inferior_loop, State.call, hack0, hxok, hxne]
      simpa [State.call] using h1
    · rw [htr]
      simp [State.call, drain_calls_cons]

/-- C10: the drain loop of `child_kill_inferior` stops at the first
acknowledgement that fails (`stopper = none`) or at the first wait that fails
or delivers an exit-process event (`stopper = some w`), the events `pre`
drained before being delivered by successful waits, none of them an
exit-process event, and their acknowledgements succeeding.  Its calls are
`TerminateProcess`, the acknowledgement of the pending event, for every
drained event the wait that delivers it and its acknowledgement with the
default disposition, the last wait if the loop stops at a wait, and then
`CloseHandle` on the process handle and on the thread handle and
`target_mourn_inferior`; the outcomes `post` after the stopping point are not
consumed. -/
theorem child_kill_inferior_drains (os : OS) (pre : List WaitOutcome)
    (stopper : Option WaitOutcome) (post : List WaitOutcome) (s : State)
    (hpre : ∀ x ∈ pre, x.ok = true ∧ x.event.dwDebugEventCode ≠ EXIT_PROCESS_DEBUG_EVENT)
    (hacks : ∀ k < pre.length, os.ContinueDebugEvent
      (s.trace ++ Call.TerminateProcess s.current_process 0 ::
        drain_calls s.current_process_id s.current_thread_id (pre.take k)) = true)
    (hstop : match stopper with
      | none => os.ContinueDebugEvent
          (s.trace ++ Call.TerminateProcess s.current_process 0 ::
            drain_calls s.current_process_id s.current_thread_id pre) = false
      | some w => os.ContinueDebugEvent
          (s.trace ++ Call.TerminateProcess s.current_process 0 ::
            drain_calls s.current_process_id s.current_thread_id pre) = true ∧
          (w.ok = false ∨ w.event.dwDebugEventCode = EXIT_PROCESS_DEBUG_EVENT)) :
    ∃ s1, child_kill_inferior os (pre ++ stopper.toList ++ post) s = some (s1, post) ∧
      s1.trace = s.trace ++ Call.TerminateProcess s.current_process 0 ::
        drain_calls s.current_process_id s.current_thread_id pre
        ++ (if stopper.isSome then [Call.WaitForDebugEvent] else [])
        ++ [Call.CloseHandle s.current_process, Call.CloseHandle s.current_thread,
            Call.target_mourn_inferior] := by
  obtain ⟨s1, h1, hp, ht, htr⟩ := child_kill_inferior_loop_run os stopper post pre
    (s.call (Call.TerminateProcess s.current_process 0)) hpre
    (by
      intro k hk
      have := hacks k hk
      simpa [State.call] using this)
    (by
      cases stopper with
      | none => simpa [State.call] using hstop
      | some w => simpa [State.call] using hstop)
  refine ⟨((s1.call (Call.CloseHandle s1.current_process)).call
    (Call.CloseHandle s1.current_thread)).call Call.target_mourn_inferior, ?_, ?_⟩
  · simp only [child_kill_inferior, h1, Option.map_some']
    rfl
  · simp [State.call, htr, hp, ht]

/-- C10 when every wait fails: `child_kill_inferior` makes one acknowledgement
and one wait and then releases the process handle 11 and the thread handle
12. -/
theorem child_kill_inferior_drains_witness :
    ∃ s1, child_kill_inferior (imageOS (fun _ => none) [])
        ([] ++ (some (⟨false, zeroEvent⟩ : WaitOutcome)).toList
          ++ [⟨false, zeroEvent⟩, ⟨false, zeroEvent⟩])
        { zeroState with current_process := 11, current_thread := 12,
                         current_process_id := 7, current_thread_id := 9 }
        = some (s1, [⟨false, zeroEvent⟩, ⟨false, zeroEvent⟩]) ∧
      s1.trace = [Call.TerminateProcess 11 0, Call.ContinueDebugEvent 7 9 DBG_CONTINUE,
        Call.WaitForDebugEvent, Call.CloseHandle 11, Call.CloseHandle 12,
        Call.target_mourn_inferior] :=
  child_kill_inferior_drains (imageOS (fun _ => none) []) [] (some ⟨false, zeroEvent⟩)
    [⟨false, zeroEvent⟩, ⟨false, zeroEvent⟩]
    { zeroState with current_process := 11, current_thread := 12,
                     current_process_id := 7, current_thread_id := 9 }
    (by simp) (by simp) ⟨rfl, Or.inl rfl⟩

/-- The drain loop on a system that refuses the first acknowledgement: no wait
is made, the pending outcome is not consumed, and both handles are released. -/
theorem child_kill_inferior_refused :
    (child_kill_inferior refusingOS [⟨true, loadEvent⟩]
        { zeroState with current_process := 11, current_thread := 12,
                         current_process_id := 7, current_thread_id := 9 }).map
      (fun r => (r.1.trace, r.2))
      = some ([Call.TerminateProcess 11 0, Call.ContinueDebugEvent 7 9 DBG_CONTINUE,
          Call.CloseHandle 11, Call.CloseHandle 12, Call.target_mourn_inferior],
          [⟨true, loadEvent⟩]) := by
  rfl

/-! ### The exception table -/

theorem xlate_entries_eq :
    xlate_entries =
      [ ⟨EXCEPTION_ACCESS_VIOLATION, some target_signal.TARGET_SIGNAL_SEGV⟩,
        ⟨STATUS_STACK_OVERFLOW, some target_signal.TARGET_SIGNAL_SEGV⟩,
        ⟨EXCEPTION_BREAKPOINT, some target_signal.TARGET_SIGNAL_TRAP⟩,
        ⟨DBG_CONTROL_C, some target_signal.TARGET_SIGNAL_INT⟩,
        ⟨EXCEPTION_SINGLE_STEP, some target_signal.TARGET_SIGNAL_TRAP⟩ ] := by
  decide

/-- C14: the signal the switch of `handle_exception` stores is the result of
the linear, first-match-wins search of the entries of `xlate` before the
sentinel, Unknown for a code that matches no entry.  The switch stores that
signal for every code on second chance and for every code of the table on
first chance; on the one remaining path, a first-chance code outside the
table, it returns before any signal is stored. -/
theorem switch_agrees_with_xlate (event : DEBUG_EVENT) :
    handle_exception_switch
        { event with u := { event.u with
            Exception := { event.u.Exception with dwFirstChance := 0 } } }
      = some (xlate_linear_search event.u.Exception.ExceptionRecord.ExceptionCode) ∧
    handle_exception_switch event
      = (if event.u.Exception.ExceptionRecord.ExceptionCode ∈ xlate_entries.map (fun e => e.them)
            ∨ event.u.Exception.dwFirstChance = 0 then
          some (xlate_linear_search event.u.Exception.ExceptionRecord.ExceptionCode)
         else none) := by
  have key : ∀ (code fc : Nat) (ev : DEBUG_EVENT),
      ev.u.Exception.ExceptionRecord.ExceptionCode = code → ev.u.Exception.dwFirstChance = fc →
      handle_exception_switch ev
        = (if code ∈ xlate_entries.map (fun e => e.them) ∨ fc = 0 then
            some (xlate_linear_search code) else none) := by
    intro code fc ev hc hf
    simp only [handle_exception_switch, xlate_linear_search, xlate_entries_eq, hc, hf]
    by_cases h1 : code = EXCEPTION_ACCESS_VIOLATION
    · subst h1
      simp [List.find?, EXCEPTION_ACCESS_VIOLATION, STATUS_STACK_OVERFLOW, EXCEPTION_BREAKPOINT,
        DBG_CONTROL_C, EXCEPTION_SINGLE_STEP]
    by_cases h2 : code = STATUS_STACK_OVERFLOW
    · subst h2
      simp [List.find?, EXCEPTION_ACCESS_VIOLATION, STATUS_STACK_OVERFLOW, EXCEPTION_BREAKPOINT,
        DBG_CONTROL_C, EXCEPTION_SINGLE_STEP]
    by_cases h3 : code = EXCEPTION_BREAKPOINT
    · subst h3
      simp [List.find?, EXCEPTION_ACCESS_VIOLATION, STATUS_STACK_OVERFLOW, EXCEPTION_BREAKPOINT,
        DBG_CONTROL_C, EXCEPTION_SINGLE_STEP]
    by_cases h4 : code = DBG_CONTROL_C
    · subst h4
      simp [List.find?, EXCEPTION_ACCESS_VIOLATION, STATUS_STACK_OVERFLOW, EXCEPTION_BREAKPOINT,
        DBG_CONTROL_C, EXCEPTION_SINGLE_STEP]
    by_cases h5 : code = EXCEPTION_SINGLE_STEP
    · subst h5
      simp [List.find?, EXCEPTION_ACCESS_VIOLATION, STATUS_STACK_OVERFLOW, EXCEPTION_BREAKPOINT,
        DBG_CONTROL_C, EXCEPTION_SINGLE_STEP]
    have g1 := Ne.symm h1
    have g2 := Ne.symm h2
    have g3 := Ne.symm h3
    have g4 := Ne.symm h4
    have g5 := Ne.symm h5
    by_cases hfc : fc = 0 <;>
      simp [h1, h2, h3, h4, h5, g1, g2, g3, g4, g5, hfc, List.find?]
  constructor
  · rw [key _ 0 _ rfl rfl]
    simp
  · exact key _ _ event rfl rfl

/-! ### Launch: the environment block -/

theorem bytes_PATH : bytes "PATH=" = [80, 65, 84, 72, 61] := by decide

theorem conv_path_names_find_pos (v : List Nat) (h : [80, 65, 84, 72, 61] <+: v) :
    conv_path_names.find? (fun c => strncmp_eq c v c.length) = some [80, 65, 84, 72, 61] := by
  have ht := List.prefix_iff_eq_take.mp h
  simp only [List.length_cons, List.length_nil] at ht
  simp [conv_path_names, List.find?, strncmp_eq, ← ht]

theorem conv_path_names_find_neg (v : List Nat) (h : ¬ [80, 65, 84, 72, 61] <+: v) :
    conv_path_names.find? (fun c => strncmp_eq c v c.length) = none := by
  have ht : ¬ [80, 65, 84, 72, 61] = List.take 5 v := by
    intro e
    exact h (List.prefix_iff_eq_take.mpr (by simpa using e))
  simp [conv_path_names, List.find?, strncmp_eq, ht]

theorem env_entry_eq (host : Host) (v : List Nat) :
    env_entry host v = claimed_entry host v ++ [0] := by
  unfold env_entry claimed_entry
  rw [bytes_PATH]
  by_cases h : [80, 65, 84, 72, 61] <+: v
  · have ht := List.prefix_iff_eq_take.mp h
    simp only [List.length_cons, List.length_nil] at ht
    rw [conv_path_names_find_pos v h]
    by_cases hp : host.cygwin32_posix_path_list_p (List.drop 5 v) = true
    · simp [h, hp, ← ht]
    · simp [h, hp]
  · rw [conv_path_names_find_neg v h]
    simp [h]

theorem env_entry_size_bound (host : Host) (v : List Nat)
    (hbuf : ∀ value, (cstring (host.cygwin32_posix_to_win32_path_list value)).length + 1
      ≤ host.cygwin32_posix_to_win32_path_list_buf_size value) :
    (env_entry host v).length ≤ env_entry_size host v := by
  unfold env_entry env_entry_size
  by_cases h : [80, 65, 84, 72, 61] <+: v
  · rw [conv_path_names_find_pos v h]
    by_cases hp : host.cygwin32_posix_path_list_p (List.drop 5 v) = true
    · have := hbuf (List.drop 5 v)
      have h5 : ([80, 65, 84, 72, 61] : List Nat).length = 5 := rfl
      simp only [h5, hp, if_true, List.length_append, List.length_take,
        List.length_singleton]
      omega
    · have h5 : ([80, 65, 84, 72, 61] : List Nat).length = 5 := rfl
      simp [h5, hp]
  · rw [conv_path_names_find_neg v h]
    simp

theorem winenv_eq (host : Host) (env : List (List Nat)) :
    winenv host env = claimed_block host (env.takeWhile (fun v => decide (v ≠ []))) := by
  induction env with
  | nil => rfl
  | cons v rest ih =>
    by_cases hv : v = []
    · simp [winenv, hv, claimed_block]
    · simp only [winenv, hv, if_false, ih, claimed_block, env_entry_eq]
      simp [List.takeWhile_cons, hv]

theorem winenv_length (host : Host) (env : List (List Nat))
    (hbuf : ∀ value, (cstring (host.cygwin32_posix_to_win32_path_list value)).length + 1
      ≤ host.cygwin32_posix_to_win32_path_list_buf_size value) :
    (winenv host env).length ≤ winenv_size host env + 1 := by
  induction env with
  | nil => simp [winenv, winenv_size]
  | cons v rest ih =>
    by_cases hv : v = []
    · simp [winenv, winenv_size, hv]
    · have := env_entry_size_bound host v hbuf
      simp only [winenv, winenv_size, hv, if_false, List.length_append]
      omega

/-- C11 (amended): the environment block `child_create_inferior` hands to
`CreateProcess` is, in order, the entry of every variable that precedes the
first empty string of the list, each followed by a NUL byte, then one final
NUL byte; the variables from the first empty string on are left out.  A
variable that does not begin with `PATH=` is its own entry; one that does
keeps the prefix and has its value replaced by the OS-native path list when
the value is a host-convention path list, and is its own entry otherwise.
When the buffer-size function returns at least the length of the converted
list plus one, the block is no longer than the `envlen + 1` bytes of the
sizing pass. -/
theorem environment_block_of_launch (host : Host) (file allargs : List Nat)
    (env : List (List Nat)) (g : Session)
    (hbuf : ∀ value, (cstring (host.cygwin32_posix_to_win32_path_list value)).length + 1
      ≤ host.cygwin32_posix_to_win32_path_list_buf_size value) :
    ((child_create_inferior_launch host (some file) allargs env g).session.trace.drop
        g.trace.length).head?
      = some (Call.CreateProcess (host.cygwin32_conv_to_win32_path file ++ [32] ++ allargs)
          (DEBUG_ONLY_THIS_PROCESS
            ||| (if g.new_group ≠ 0 then CREATE_NEW_PROCESS_GROUP else 0)
            ||| (if g.new_console ≠ 0 then CREATE_NEW_CONSOLE else 0))
          (winenv host env)) ∧
    winenv host env = claimed_block host (env.takeWhile (fun v => decide (v ≠ []))) ∧
    (winenv host env).length ≤ winenv_size host env + 1 := by
  refine ⟨?_, winenv_eq host env, winenv_length host env hbuf⟩
  simp only [child_create_inferior_launch]
  split <;> simp [Outcome.session, Session.call, State.call]

theorem exampleHost_buf_size (value : List Nat) :
    (cstring (exampleHost.cygwin32_posix_to_win32_path_list value)).length + 1
      ≤ exampleHost.cygwin32_posix_to_win32_path_list_buf_size value := by
  have h := (List.takeWhile_sublist (l := exampleHost.cygwin32_posix_to_win32_path_list value)
    (fun x => decide (x ≠ 0))).length_le
  have h2 : (exampleHost.cygwin32_posix_to_win32_path_list value).length = value.length := by
    simp [exampleHost]
  simp only [cstring, exampleHost] at h h2 ⊢
  omega

/-- C11 (amended) on the list `HOME=/home/u`, `PATH=/bin:/usr/bin`,
`TERM=xterm`. -/
theorem environment_block_of_launch_witness :
    ((child_create_inferior_launch exampleHost (some (bytes "/bin/a.exe")) (bytes "-x")
        [bytes "HOME=/home/u", bytes "PATH=/bin:/usr/bin", bytes "TERM=xterm"]
        zeroSession).session.trace.drop zeroSession.trace.length).head?
      = some (Call.CreateProcess
          (exampleHost.cygwin32_conv_to_win32_path (bytes "/bin/a.exe") ++ [32] ++ bytes "-x")
          (DEBUG_ONLY_THIS_PROCESS
            ||| (if zeroSession.new_group ≠ 0 then CREATE_NEW_PROCESS_GROUP else 0)
            ||| (if zeroSession.new_console ≠ 0 then CREATE_NEW_CONSOLE else 0))
          (winenv exampleHost
            [bytes "HOME=/home/u", bytes "PATH=/bin:/usr/bin", bytes "TERM=xterm"])) ∧
    winenv exampleHost [bytes "HOME=/home/u", bytes "PATH=/bin:/usr/bin", bytes "TERM=xterm"]
      = claimed_block exampleHost
          ([bytes "HOME=/home/u", bytes "PATH=/bin:/usr/bin", bytes "TERM=xterm"].takeWhile
            (fun v => decide (v ≠ []))) ∧
    (winenv exampleHost
        [bytes "HOME=/home/u", bytes "PATH=/bin:/usr/bin", bytes "TERM=xterm"]).length
      ≤ winenv_size exampleHost
          [bytes "HOME=/home/u", bytes "PATH=/bin:/usr/bin", bytes "TERM=xterm"] + 1 :=
  environment_block_of_launch exampleHost (bytes "/bin/a.exe") (bytes "-x")
    [bytes "HOME=/home/u", bytes "PATH=/bin:/usr/bin", bytes "TERM=xterm"] zeroSession
    exampleHost_buf_size

/-- The block of the witness of C11, written out: the `PATH` value is
converted, the other two variables are copied. -/
theorem environment_block_example :
    winenv exampleHost [bytes "HOME=/home/u", bytes "PATH=/bin:/usr/bin", bytes "TERM=xterm"]
      = bytes "HOME=/home/u" ++ [0] ++ bytes "PATH=\\bin;\\usr\\bin" ++ [0]
          ++ bytes "TERM=xterm" ++ [0] ++ [0] ∧
    winenv_size exampleHost
      [bytes "HOME=/home/u", bytes "PATH=/bin:/usr/bin", bytes "TERM=xterm"] = 43 := by
  constructor <;> decide

/-- C11 as stated fails.  On the list `A=1`, the empty string, `B=2` the
block handed over is `A=1`, NUL, NUL: it is not the block of every variable of
the list, and `B=2` is dropped. -/
theorem variable_after_empty_string_dropped :
    winenv exampleHost [bytes "A=1", [], bytes "B=2"] = bytes "A=1" ++ [0, 0] ∧
    decide (winenv exampleHost [bytes "A=1", [], bytes "B=2"]
      = claimed_block exampleHost [bytes "A=1", [], bytes "B=2"]) = false ∧
    ((child_create_inferior_launch exampleHost (some (bytes "/bin/a.exe")) []
        [bytes "A=1", [], bytes "B=2"] zeroSession).session.trace.head?.map fun c =>
      match c with
      | Call.CreateProcess _ _ block => block
      | _ => []) = some (bytes "A=1" ++ [0, 0]) := by
  refine ⟨by decide, by decide, by decide⟩

/-! ### Attach -/

/-- C12: what `child_attach` does with a process id, evaluated for every
session.  When the system accepts the attachment it returns with both
counters zero, `inferior_pid` set and the target pushed, but `attach_flag` as
it was, so that `child_files_info` goes on choosing its word by the old flag
("child" after a launch or at start-up).  When the system refuses, it ends in
`error` with the counters and `inferior_pid` as they were and no target
pushed. -/
theorem child_attach_leaves_attach_flag (host : Host) (pid : Nat) (from_tty : Int)
    (g : Session) :
    if host.DebugActiveProcess (g.trace ++ [Call.DebugActiveProcess pid]) = true then
      ∃ g1, child_attach host (some pid) from_tty g = Outcome.returned g1 ∧
        g1.event_count = 0 ∧ g1.exception_count = 0 ∧ g1.inferior_pid = pid ∧
        g1.trace = g.trace ++ [Call.DebugActiveProcess pid, Call.push_target] ∧
        g1.attach_flag = g.attach_flag ∧
        child_files_info g1 = (if g.attach_flag ≠ 0 then "attached" else "child", pid)
    else
      ∃ g1, child_attach host (some pid) from_tty g = Outcome.error g1 ∧
        g1.event_count = g.event_count ∧ g1.exception_count = g.exception_count ∧
        g1.inferior_pid = g.inferior_pid ∧ g1.attach_flag = g.attach_flag ∧
        g1.trace = g.trace ++ [Call.DebugActiveProcess pid] := by
  by_cases h : host.DebugActiveProcess (g.trace ++ [Call.DebugActiveProcess pid]) = true
  · simp only [h, if_true]
    refine ⟨Session.call
      { g with current_process_id := pid, exception_count := 0, event_count := 0,
               trace := g.trace ++ [Call.DebugActiveProcess pid],
               inferior_pid := pid } Call.push_target, ?_, rfl, rfl, rfl, ?_, rfl, rfl⟩
    · simp [child_attach, Session.call, State.call, h]
    · simp [Session.call, State.call]
  · simp only [h, if_false]
    have h2 : host.DebugActiveProcess (g.trace ++ [Call.DebugActiveProcess pid]) = false := by
      simpa using h
    refine ⟨Session.call { g with current_process_id := pid } (Call.DebugActiveProcess pid),
      ?_, rfl, rfl, rfl, rfl, rfl⟩
    simp [child_attach, Session.call, State.call, h2]

/-- The failing input of C12: attaching to process 1234 from the initial
session, on a system that accepts the attachment, leaves `attach_flag` at 0
and `child_files_info` reports the target as "child". -/
theorem child_attach_reported_as_child :
    (child_attach exampleHost (some 1234) 0 zeroSession).session.attach_flag = 0 ∧
    child_files_info (child_attach exampleHost (some 1234) 0 zeroSession).session
      = ("child", 1234) := by
  constructor <;> decide

/-! ### The thread whose context is fetched at a stop -/

theorem SameHandles_trans {s t u : State} (h1 : SameHandles s t) (h2 : SameHandles t u) :
    SameHandles s u :=
  ⟨h2.1.trans h1.1, h2.2.trans h1.2⟩

theorem dll_name_scan_handles (os : OS) (ptr size : Nat) :
    ∀ (fuel len : Nat) (s : State) (n : Nat) (t : State),
      dll_name_scan os ptr size fuel len s = some (n, t) → SameHandles s t := by
  intro fuel
  induction fuel with
  | zero => intro len s n t h; simp [dll_name_scan] at h
  | succ k ih =>
    intro len s n t h
    simp only [dll_name_scan] at h
    split at h
    · have hh := ih _ _ _ _ h
      exact ⟨hh.1, hh.2⟩
    · simp only [Option.some.injEq, Prod.mk.injEq] at h
      rw [← h.2]
      exact ⟨rfl, rfl⟩

theorem read_dll_name_handles (os : OS) (event : DEBUG_EVENT) (s t : State)
    (name : Option (List Nat)) (h : read_dll_name os event s = some (t, name)) :
    SameHandles s t := by
  simp only [read_dll_name] at h
  split at h
  · split at h
    · simp at h
    · rename_i len s2 hscan
      have hq2 := dll_name_scan_handles os _ _ _ _ _ _ _ hscan
      split at h
      · simp only [Option.some.injEq, Prod.mk.injEq] at h
        rw [← h.1]
        exact SameHandles_trans hq2 ⟨rfl, rfl⟩
      · simp only [Option.some.injEq, Prod.mk.injEq] at h
        rw [← h.1]
        exact SameHandles_trans hq2 ⟨rfl, rfl⟩
  · simp only [Option.some.injEq, Prod.mk.injEq] at h
    rw [← h.1]
    exact ⟨rfl, rfl⟩

theorem handle_load_dll_handles (os : OS) (event : DEBUG_EVENT) (s t : State) (r : Int)
    (h : handle_load_dll os event s = some (r, t)) : SameHandles s t := by
  simp only [handle_load_dll] at h
  split at h
  · simp at h
  · rename_i s1 hr
    simp only [Option.some.injEq, Prod.mk.injEq] at h
    rw [← h.2]
    exact read_dll_name_handles os event s s1 none hr
  · rename_i s1 dll_name hr
    have hq := read_dll_name_handles os event s s1 (some dll_name) hr
    split at h
    · simp only [Option.some.injEq, Prod.mk.injEq] at h
      rw [← h.2]
      exact hq
    · simp only [Option.some.injEq, Prod.mk.injEq] at h
      rw [← h.2]
      exact SameHandles_trans hq ⟨rfl, rfl⟩

theorem child_wait_switch_acknowledge_handles (os : OS) (e : DEBUG_EVENT)
    (st : target_waitstatus) (s : State) (hstop : stops e = false)
    (hscan : e.dwDebugEventCode = LOAD_DLL_DEBUG_EVENT →
      ∀ t, (handle_load_dll os e t).isSome = true) :
    ∃ st1 s1, child_wait_switch os e st s = some (Round.acknowledge (disposition e) st1 s1) ∧
      SameHandles s s1 := by
  simp only [stops, Bool.or_eq_false_iff, decide_eq_false_iff_not, Bool.and_eq_false_iff]
    at hstop
  obtain ⟨hexit, hexc⟩ := hstop
  by_cases h7 : e.dwDebugEventCode = EXCEPTION_DEBUG_EVENT
  · have hsw : handle_exception_switch e = none := by
      rcases hexc with h | h
      · exact absurd h7 h
      · cases hsw : handle_exception_switch e with
        | none => rfl
        | some sig => simp [hsw] at h
    have hd : disposition e = DBG_EXCEPTION_NOT_HANDLED := by simp [disposition, h7, hsw]
    refine ⟨{ st with kind := target_waitkind.TARGET_WAITKIND_STOPPED },
      { s with event_count := s.event_count + 1,
               current_thread_id := e.dwThreadId,
               current_process_id := e.dwProcessId }, ?_, rfl, rfl⟩
    simp [child_wait_switch, h7, hd, handle_exception, hsw, EXCEPTION_DEBUG_EVENT,
      CREATE_THREAD_DEBUG_EVENT, EXIT_THREAD_DEBUG_EVENT, CREATE_PROCESS_DEBUG_EVENT,
      EXIT_PROCESS_DEBUG_EVENT, LOAD_DLL_DEBUG_EVENT, UNLOAD_DLL_DEBUG_EVENT]
  · have hd : disposition e = DBG_CONTINUE := by simp [disposition, h7]
    rw [hd]
    by_cases h5 : e.dwDebugEventCode = LOAD_DLL_DEBUG_EVENT
    · have hsome := hscan h5 { s with event_count := s.event_count + 1,
                                      current_thread_id := e.dwThreadId,
                                      current_process_id := e.dwProcessId }
      obtain ⟨⟨r, t⟩, ht⟩ := Option.isSome_iff_exists.mp hsome
      have hq := handle_load_dll_handles os e _ t r ht
      refine ⟨st, t.call Call.registers_changed, ?_, hq.1, hq.2⟩
      simp [child_wait_switch, h5, ht, LOAD_DLL_DEBUG_EVENT, CREATE_THREAD_DEBUG_EVENT,
        EXIT_THREAD_DEBUG_EVENT, CREATE_PROCESS_DEBUG_EVENT, EXIT_PROCESS_DEBUG_EVENT]
    · by_cases h8 : e.dwDebugEventCode = OUTPUT_DEBUG_STRING_EVENT
      · refine ⟨st, State.call { s with event_count := s.event_count + 1,
                                        current_thread_id := e.dwThreadId,
                                        current_process_id := e.dwProcessId }
            (Call.target_read_string e.u.DebugString.lpDebugStringData 1024), ?_, rfl, rfl⟩
        simp [child_wait_switch, h8, OUTPUT_DEBUG_STRING_EVENT, LOAD_DLL_DEBUG_EVENT,
          CREATE_THREAD_DEBUG_EVENT, EXIT_THREAD_DEBUG_EVENT, CREATE_PROCESS_DEBUG_EVENT,
          EXIT_PROCESS_DEBUG_EVENT, UNLOAD_DLL_DEBUG_EVENT, EXCEPTION_DEBUG_EVENT]
      · refine ⟨st, { s with event_count := s.event_count + 1,
                             current_thread_id := e.dwThreadId,
                             current_process_id := e.dwProcessId }, ?_, rfl, rfl⟩
        simp only [child_wait_switch, hexit, h5, h7, h8, if_false]
        split_ifs <;> rfl

theorem child_wait_reaches_last (os : OS) (pid : Int) (w : WaitOutcome)
    (post : List WaitOutcome) :
    ∀ (pre : List WaitOutcome) (st : target_waitstatus) (s : State),
      (∀ x ∈ pre, stops x.event = false) →
      (∀ x ∈ pre, x.event.dwDebugEventCode = LOAD_DLL_DEBUG_EVENT →
        ∀ t, (handle_load_dll os x.event t).isSome = true) →
      ∃ st1 s1, SameHandles s s1 ∧
        child_wait os pid (pre ++ w :: post) st s = child_wait os pid (w :: post) st1 s1 := by
  intro pre
  induction pre with
  | nil => intro st s _ _; exact ⟨st, s, ⟨rfl, rfl⟩, rfl⟩
  | cons x xs ih =>
    intro st s hpre hscan
    have hx : stops x.event = false := hpre x (List.mem_cons_self _ _)
    obtain ⟨st1, s1, h1, hh⟩ := child_wait_switch_acknowledge_handles os x.event st
      (s.call Call.WaitForDebugEvent) hx (hscan x (List.mem_cons_self _ _))
    obtain ⟨st2, s2, hh2, h2⟩ := ih st1
      (s1.call (Call.ContinueDebugEvent s1.current_process_id s1.current_thread_id
        (disposition x.event)))
      (fun y hy => hpre y (List.mem_cons_of_mem _ hy))
      (fun y hy => hscan y (List.mem_cons_of_mem _ hy))
    refine ⟨st2, s2, ?_, ?_⟩
    · exact ⟨hh2.1.trans hh.1, hh2.2.trans hh.2⟩
    · simp only [List.cons_append, child_wait, h1]
      exact h2

theorem child_wait_exception_stop (os : OS) (pid : Int) (w : WaitOutcome)
    (post : List WaitOutcome) (st : target_waitstatus) (s : State) (sig : target_signal)
    (hw : w.event.dwDebugEventCode = EXCEPTION_DEBUG_EVENT)
    (hsig : handle_exception_switch w.event = some sig) :
    ∃ r c0, child_wait os pid (w :: post) st s = some r ∧
      r.ourstatus = ⟨target_waitkind.TARGET_WAITKIND_STOPPED, waitstatus_value.sig sig⟩ ∧
      r.state.current_thread_id = w.event.dwThreadId ∧
      r.state.current_thread = s.current_thread ∧
      r.state.trace = s.trace ++ [Call.WaitForDebugEvent,
        Call.GetThreadContext s.current_thread (CONTEXT_FULL ||| CONTEXT_FLOATING_POINT)] ∧
      r.state.context = { os.GetThreadContext r.state.trace c0 with
        ContextFlags := CONTEXT_FULL ||| CONTEXT_FLOATING_POINT } := by
  refine ⟨⟨w.event.dwProcessId,
      ⟨target_waitkind.TARGET_WAITKIND_STOPPED, waitstatus_value.sig sig⟩,
      (handle_exception os w.event st
        { s.call Call.WaitForDebugEvent with
          event_count := s.event_count + 1,
          current_thread_id := w.event.dwThreadId,
          current_process_id := w.event.dwProcessId }).2.2, post⟩,
    { s.context with ContextFlags := CONTEXT_FULL ||| CONTEXT_FLOATING_POINT },
    ?_, rfl, ?_, ?_, ?_, ?_⟩
  · simp [child_wait, child_wait_switch, hw, handle_exception, hsig, EXCEPTION_DEBUG_EVENT,
      CREATE_THREAD_DEBUG_EVENT, EXIT_THREAD_DEBUG_EVENT, CREATE_PROCESS_DEBUG_EVENT,
      EXIT_PROCESS_DEBUG_EVENT, LOAD_DLL_DEBUG_EVENT, UNLOAD_DLL_DEBUG_EVENT,
      GetThreadContext, State.call]
  · simp [handle_exception, hsig, GetThreadContext, State.call]
  · simp [handle_exception, hsig, GetThreadContext, State.call]
  · simp [handle_exception, hsig, GetThreadContext, State.call]
  · simp [handle_exception, hsig, GetThreadContext, State.call]

/-- C13 (amended): whenever `child_wait` returns Stopped for an exception
event `w`, the thread id of `w` has been recorded in `current_thread_id`, and
the cached context has been fetched again by a `GetThreadContext` call, the
last call made, with all four register groups requested and left marked
valid.  That call is made on the thread handle kept in `current_thread`,
which `child_wait` never changes: it is the handle the session held on entry,
whatever thread the event was reported on. -/
theorem stop_refetches_through_held_handle (os : OS) (pid : Int) (pre : List WaitOutcome)
    (w : WaitOutcome) (post : List WaitOutcome) (st : target_waitstatus) (s : State)
    (hpre : ∀ x ∈ pre, stops x.event = false)
    (hw : w.event.dwDebugEventCode = EXCEPTION_DEBUG_EVENT)
    (hsig : (handle_exception_switch w.event).isSome = true)
    (hscan : ∀ x ∈ pre, x.event.dwDebugEventCode = LOAD_DLL_DEBUG_EVENT →
      ∀ t, (handle_load_dll os x.event t).isSome = true) :
    ∃ r tr c0, child_wait os pid (pre ++ w :: post) st s = some r ∧
      r.ourstatus.kind = target_waitkind.TARGET_WAITKIND_STOPPED ∧
      r.state.current_thread_id = w.event.dwThreadId ∧
      r.state.current_thread = s.current_thread ∧
      r.state.trace = tr ++
        [Call.GetThreadContext s.current_thread (CONTEXT_FULL ||| CONTEXT_FLOATING_POINT)] ∧
      r.state.context = { os.GetThreadContext r.state.trace c0 with
        ContextFlags := CONTEXT_FULL ||| CONTEXT_FLOATING_POINT } ∧
      (∀ m ∈ [CONTEXT_INTEGER, CONTEXT_CONTROL, CONTEXT_SEGMENTS, CONTEXT_FLOATING_POINT],
        r.state.context.ContextFlags &&& m = m) := by
  obtain ⟨sig, hs⟩ := Option.isSome_iff_exists.mp hsig
  obtain ⟨st1, s1, hh, heq⟩ := child_wait_reaches_last os pid w post pre st s hpre hscan
  obtain ⟨r, c0, hr, hst, htid, hth, htr, hctx⟩ :=
    child_wait_exception_stop os pid w post st1 s1 sig hw hs
  refine ⟨r, s1.trace ++ [Call.WaitForDebugEvent], c0, heq.trans hr, ?_, htid,
    hth.trans hh.2, ?_, hctx, ?_⟩
  · rw [hst]
  · rw [htr, hh.2]
    simp
  · have hf : r.state.context.ContextFlags = CONTEXT_FULL ||| CONTEXT_FLOATING_POINT := by
      rw [hctx]
    rw [hf]
    decide

/-- C13 (amended) on a load-module event followed by a breakpoint reported on
thread 10, in a session that holds the thread handle 12. -/
theorem stop_refetches_through_held_handle_witness :
    ∃ r tr c0, child_wait (imageOS (fun _ => none) []) 0
        ([⟨true, loadEvent⟩] ++ ⟨true, otherThreadEvent⟩ :: [])
        ⟨target_waitkind.TARGET_WAITKIND_SPURIOUS, waitstatus_value.integer 0⟩
        { zeroState with current_thread := 12, current_thread_id := 9 } = some r ∧
      r.ourstatus.kind = target_waitkind.TARGET_WAITKIND_STOPPED ∧
      r.state.current_thread_id = 10 ∧
      r.state.current_thread = 12 ∧
      r.state.trace = tr ++
        [Call.GetThreadContext 12 (CONTEXT_FULL ||| CONTEXT_FLOATING_POINT)] ∧
      r.state.context = { (imageOS (fun _ => none) []).GetThreadContext r.state.trace c0 with
        ContextFlags := CONTEXT_FULL ||| CONTEXT_FLOATING_POINT } ∧
      (∀ m ∈ [CONTEXT_INTEGER, CONTEXT_CONTROL, CONTEXT_SEGMENTS, CONTEXT_FLOATING_POINT],
        r.state.context.ContextFlags &&& m = m) :=
  stop_refetches_through_held_handle (imageOS (fun _ => none) []) 0 [⟨true, loadEvent⟩]
    ⟨true, otherThreadEvent⟩ []
    ⟨target_waitkind.TARGET_WAITKIND_SPURIOUS, waitstatus_value.integer 0⟩
    { zeroState with current_thread := 12, current_thread_id := 9 }
    (by decide) (by decide) (by decide) (fun _ _ _ t => handle_load_dll_unmapped _ t)

/-- C13 as stated fails.  The launch obtains the handle 12 for thread 9 and
consumes the initial breakpoint of that thread.  The next `child_wait` returns
Stopped for a breakpoint reported on thread 10 and records 10 as the current
thread id, yet every `GetThreadContext` call made, the one at this stop
included, is made on the handle 12 of thread 9, which is still the handle
held. -/
theorem stop_on_other_thread_fetches_launch_thread :
    exampleHost.CreateProcess [] = some ⟨11, 12, 7, 9⟩ ∧
    ((child_create_inferior (imageOS (fun _ => none) []) exampleHost
        (some (bytes "/bin/a.exe")) [] []
        ⟨target_waitkind.TARGET_WAITKIND_SPURIOUS, waitstatus_value.integer 0⟩
        [⟨true, breakpointEvent⟩, ⟨true, otherThreadEvent⟩] zeroSession).bind fun p =>
      (child_wait (imageOS (fun _ => none) []) 7 p.2
        ⟨target_waitkind.TARGET_WAITKIND_SPURIOUS, waitstatus_value.integer 0⟩
        p.1.session.toState).map fun r =>
          (r.ourstatus, otherThreadEvent.dwThreadId, r.state.current_thread_id,
            r.state.current_thread, fetchedHandles r.state.trace))
      = some (⟨target_waitkind.TARGET_WAITKIND_STOPPED,
          waitstatus_value.sig target_signal.TARGET_SIGNAL_TRAP⟩, 10, 10, 12, [12, 12]) := by
  constructor <;> decide

end Win32Nat
